import Mathlib

/-!
Verification of the Caves of Qud Foundry VTT system's computational core.

The JavaScript sources are shallowly embedded: imperative state mutation
becomes explicit state passing, JS numbers on integer data become `Int`
(exact rationals `ℚ` where a division occurs), fallible lookups become
`Option`, and the random die source becomes an explicit supply of die
results passed as a parameter.
-/

namespace Qud

/-! ## Dice engine (dice.mjs): singlets, triplets, penetration sequences -/

/-- One die of a singlet, as recorded by `rollQudSinglet`:
the raw d10 face and the face minus 2. -/
structure DieRoll where
  raw : Int
  modified : Int
  deriving Repr, DecidableEq

/-- Result record of `rollQudSinglet`. -/
structure Singlet where
  total : Int
  rolls : List DieRoll
  exploded : Bool
  explosionChain : List Int
  deriving Repr, DecidableEq

/-- The raw faces consumed by the `rollQudSinglet` loop from a supply of
forthcoming d10 results, together with the unconsumed remainder of the
supply.  The loop keeps rolling while the modified value (`raw - 2`)
equals 8.  `none` when the finite supply runs out while still exploding. -/
def singletRaws : List Int → Option (List Int × List Int)
  | [] => none
  | d :: rest =>
    if d - 2 = 8 then
      match singletRaws rest with
      | none => none
      | some (ds, rem) => some (d :: ds, rem)
    else
      some ([d], rest)

/-- Build the singlet result record from the consumed raw faces, exactly as
`rollQudSinglet` does: `total` sums the modified values, `exploded` is
`rolls.length > 1`, `explosionChain` maps back to the raw faces. -/
def mkSinglet (raws : List Int) : Singlet :=
  let rolls := raws.map (fun d => DieRoll.mk d (d - 2))
  { total := (rolls.map DieRoll.modified).sum
    rolls := rolls
    exploded := decide (rolls.length > 1)
    explosionChain := rolls.map DieRoll.raw }

/-- `rollQudSinglet`, rolling from an explicit finite supply of raw d10
faces (the `Roll("1d10")` collaborator).  Returns the singlet and the
unconsumed supply. -/
def rollQudSinglet (dice : List Int) : Option (Singlet × List Int) :=
  (singletRaws dice).map (fun p => (mkSinglet p.1, p.2))

/-- Result record of `rollQudTriplet`. -/
structure Triplet where
  singlets : List Singlet
  attackerPV : Int
  defenderAV : Int
  targetNumber : Int
  singletsPassed : Nat
  penetrations : Nat
  allPassed : Bool
  deriving Repr, DecidableEq

/-- `rollQudTriplet`, parameterized by the three already-rolled singlets
(the results of the three `rollQudSinglet` calls).  A singlet passes when
`singlet.total + attackerPV >= defenderAV`; `penetrations` is 1 when at
least one passed, and `allPassed` when all three passed. -/
def rollQudTriplet (attackerPV defenderAV : Int) (s1 s2 s3 : Singlet) : Triplet :=
  let singlets := [s1, s2, s3]
  let singletsPassed := (singlets.filter (fun s => decide (s.total + attackerPV ≥ defenderAV))).length
  { singlets := singlets
    attackerPV := attackerPV
    defenderAV := defenderAV
    targetNumber := defenderAV
    singletsPassed := singletsPassed
    penetrations := if singletsPassed > 0 then 1 else 0
    allPassed := decide (singletsPassed = 3) }

/-- Result record of `resolvePenetration`. -/
structure PenetrationResult where
  triplets : List Triplet
  totalPenetrations : Nat
  initialPV : Int
  finalPV : Int
  deriving Repr, DecidableEq

/-- The `while (continueRolling && currentPV > 0)` loop of
`resolvePenetration`.  `f` supplies the singlets: the `k`-th triplet
consumes singlets `f (3*k)`, `f (3*k+1)`, `f (3*k+2)`.  Returns the
triplets rolled (in order), the accumulated penetrations, and the final
`currentPV`. -/
def resolvePenetrationAux (f : Nat → Singlet) (defenderAV : Int) (currentPV : Int) (k : Nat) :
    List Triplet × Nat × Int :=
  if _h : 0 < currentPV then
    let t := rollQudTriplet currentPV defenderAV (f (3 * k)) (f (3 * k + 1)) (f (3 * k + 2))
    if t.allPassed then
      let r := resolvePenetrationAux f defenderAV (currentPV - 2) (k + 1)
      (t :: r.1, t.penetrations + r.2.1, r.2.2)
    else
      ([t], t.penetrations, currentPV)
  else
    ([], 0, currentPV)
termination_by currentPV.toNat
decreasing_by omega

/-- `resolvePenetration`, with the random singlet supply `f` explicit. -/
def resolvePenetration (f : Nat → Singlet) (attackerPV defenderAV : Int) : PenetrationResult :=
  let r := resolvePenetrationAux f defenderAV attackerPV 0
  { triplets := r.1
    totalPenetrations := r.2.1
    initialPV := attackerPV
    finalPV := r.2.2 }

/-- A default triplet, used only to state indexed properties via `List.getD`. -/
def dfltTriplet : Triplet :=
  rollQudTriplet 0 0 (mkSinglet []) (mkSinglet []) (mkSinglet [])

/-- Invariant relating the inputs of the `resolvePenetration` loop to its
outputs: penetrations sum per triplet, final PV accounting, halting
conditions, and the per-triplet effective PV. -/
def AuxSpec (pv : Int) (r : List Triplet × Nat × Int) : Prop :=
  r.2.1 = (r.1.map Triplet.penetrations).sum
  ∧ r.2.2 = pv - 2 * ((r.1.filter (fun t => t.allPassed)).length : Int)
  ∧ (pv ≤ 0 → r.1 = [])
  ∧ (0 < pv → r.1 ≠ [])
  ∧ (∀ i, i < r.1.length → (r.1.getD i dfltTriplet).attackerPV = pv - 2 * i)
  ∧ (∀ i, i + 1 < r.1.length → (r.1.getD i dfltTriplet).allPassed = true)
  ∧ (∀ t ∈ r.1, 0 < t.attackerPV)
  ∧ (∀ t, r.1.getLast? = some t → t.allPassed = true → r.2.2 ≤ 0)

theorem resolvePenetrationAux_spec (f : Nat → Singlet) (dAV : Int) :
    ∀ (n : Nat) (pv : Int), pv.toNat ≤ n → ∀ (k : Nat),
      AuxSpec pv (resolvePenetrationAux f dAV pv k) := by
  intro n
  induction n with
  | zero =>
    intro pv hpv k
    have hle : ¬ (0 < pv) := by omega
    rw [resolvePenetrationAux, dif_neg hle]
    refine ⟨by simp, by simp, fun _ => rfl, fun h => absurd h hle, ?_, ?_, ?_, ?_⟩
    · intro i hi; simp at hi
    · intro i hi; simp at hi
    · intro t ht; simp at ht
    · intro t ht; simp at ht
  | succ m ih =>
    intro pv hpv k
    by_cases hpos : 0 < pv
    · rw [resolvePenetrationAux, dif_pos hpos]
      simp only []
      by_cases hall : (rollQudTriplet pv dAV (f (3 * k)) (f (3 * k + 1)) (f (3 * k + 2))).allPassed = true
      · rw [if_pos hall]
        obtain ⟨A, B, C, D, E, F, G, H⟩ := ih (pv - 2) (by omega) (k + 1)
        refine ⟨?_, ?_, ?_, ?_, ?_, ?_, ?_, ?_⟩
        · simp [A]
        · simp only [List.filter_cons, hall, if_pos, List.length_cons]
          push_cast
          omega
        · intro hle; exact absurd hle (not_le.mpr hpos)
        · intro _; simp
        · intro i hi
          cases i with
          | zero => simp [rollQudTriplet]
          | succ j =>
            simp only [List.getD_cons_succ]
            have := E j (by simpa using hi)
            rw [this]; push_cast; ring
        · intro i hi
          cases i with
          | zero => simpa using hall
          | succ j =>
            simp only [List.getD_cons_succ]
            exact F j (by simpa using hi)
        · intro t ht
          rcases List.mem_cons.mp ht with h1 | h2
          · subst h1; simpa [rollQudTriplet] using hpos
          · exact G t h2
        · intro t ht htall
          show (resolvePenetrationAux f dAV (pv - 2) (k + 1)).2.2 ≤ 0
          rcases hr : (resolvePenetrationAux f dAV (pv - 2) (k + 1)).1 with _ | ⟨x, xs⟩
          · have h2 : pv - 2 ≤ 0 := by
              by_contra hc
              exact (D (by omega)) hr
            have hB : (resolvePenetrationAux f dAV (pv - 2) (k + 1)).2.2 = pv - 2 := by
              rw [B, hr]; simp
            omega
          · rw [hr, List.getLast?_cons_cons] at ht
            exact H t (by rw [hr]; exact ht) htall
      · rw [if_neg hall]
        refine ⟨by simp, ?_, ?_, ?_, ?_, ?_, ?_, ?_⟩
        · simp [List.filter_cons, hall]
        · intro hle; exact absurd hle (not_le.mpr hpos)
        · intro _; simp
        · intro i hi
          simp only [List.length_singleton] at hi
          interval_cases i
          simp [rollQudTriplet]
        · intro i hi; simp at hi
        · intro t ht
          simp only [List.mem_singleton] at ht
          subst ht; simpa [rollQudTriplet] using hpos
        · intro t ht htall
          simp only [List.getLast?_singleton, Option.some.injEq] at ht
          subst ht
          exact absurd htall hall
    · rw [resolvePenetrationAux, dif_neg hpos]
      refine ⟨by simp, by simp, fun _ => rfl, fun h => absurd h hpos, ?_, ?_, ?_, ?_⟩
      · intro i hi; simp at hi
      · intro i hi; simp at hi
      · intro t ht; simp at ht
      · intro t ht; simp at ht

/-- **C2.** For every attacker PV, defender AV and any three singlet
results, `rollQudTriplet` counts a singlet as passing iff
`total + PV ≥ AV`, yields `penetrations = 1` iff at least one singlet
passes (`0` otherwise), and sets `allPassed` iff all three pass; in
particular with PV = 10, AV = 6 and singlet totals `[-2, 5, 1]` all three
pass, `penetrations = 1` and `allPassed = true`. -/
theorem C2_triplet_evaluation (PV AV : Int) (s1 s2 s3 : Singlet) :
    ((rollQudTriplet PV AV s1 s2 s3).singletsPassed =
        (if s1.total + PV ≥ AV then 1 else 0) + (if s2.total + PV ≥ AV then 1 else 0)
          + (if s3.total + PV ≥ AV then 1 else 0))
    ∧ ((rollQudTriplet PV AV s1 s2 s3).allPassed = true ↔
        (s1.total + PV ≥ AV ∧ s2.total + PV ≥ AV ∧ s3.total + PV ≥ AV))
    ∧ ((rollQudTriplet PV AV s1 s2 s3).penetrations = 1 ↔
        (s1.total + PV ≥ AV ∨ s2.total + PV ≥ AV ∨ s3.total + PV ≥ AV))
    ∧ ((rollQudTriplet PV AV s1 s2 s3).penetrations = 0 ↔
        ¬ (s1.total + PV ≥ AV ∨ s2.total + PV ≥ AV ∨ s3.total + PV ≥ AV))
    ∧ ((rollQudTriplet 10 6 ⟨-2, [], false, []⟩ ⟨5, [], false, []⟩ ⟨1, [], false, []⟩).penetrations = 1
        ∧ (rollQudTriplet 10 6 ⟨-2, [], false, []⟩ ⟨5, [], false, []⟩ ⟨1, [], false, []⟩).allPassed = true) := by
  refine ⟨?_, ?_, ?_, ?_, by decide⟩ <;>
    by_cases h1 : s1.total + PV ≥ AV <;> by_cases h2 : s2.total + PV ≥ AV <;>
      by_cases h3 : s3.total + PV ≥ AV <;>
    simp [rollQudTriplet, h1, h2, h3]

/-- **C4 counterexample.** The claim says a singlet with forced raw d10
results `[10, 10, 3]` totals 13; the code subtracts 2 from each raw face
(10 → 8, 10 → 8, 3 → 1) and totals 17. -/
theorem C4_counterexample :
    ((rollQudSinglet [10, 10, 3]).map fun p => p.1.total) ≠ some 13
    ∧ ((rollQudSinglet [10, 10, 3]).map fun p => p.1.total) = some 17 := by
  constructor <;> decide

/-- **C4 (amended).** For a singlet whose underlying raw d10 die results
are forced to the sequence `[10, 10, 3]`, the singlet returns
total = 8 + 8 + 1 = 17 and exploded = true: each raw 10 becomes modified
8 (the exploding maximum) and the raw 3 becomes 1. -/
theorem C4_forced_singlet :
    rollQudSinglet [10, 10, 3] =
      some ({ total := 17
              rolls := [⟨10, 8⟩, ⟨10, 8⟩, ⟨3, 1⟩]
              exploded := true
              explosionChain := [10, 10, 3] }, []) := by
  decide

/-- **C3.** For every singlet supply and every initial PV and AV, the
penetration sequence rolls each triplet at effective PV reduced by 2 per
preceding all-passed triplet, halts the first time a triplet is not
all-passed or once the effective PV is ≤ 0 before a roll (with initial
PV ≤ 0 no triplet is rolled), accumulates `totalPenetrations` as the sum
of per-triplet penetrations, and ends with
`finalPV = initialPV - 2 * (number of all-passed triplets)`. -/
theorem C3_penetration_sequence (f : Nat → Singlet) (PV AV : Int) :
    (resolvePenetration f PV AV).initialPV = PV
    ∧ (resolvePenetration f PV AV).totalPenetrations =
        (((resolvePenetration f PV AV).triplets).map Triplet.penetrations).sum
    ∧ (resolvePenetration f PV AV).finalPV =
        PV - 2 * ((((resolvePenetration f PV AV).triplets).filter (fun t => t.allPassed)).length : Int)
    ∧ (PV ≤ 0 → (resolvePenetration f PV AV).triplets = [])
    ∧ (0 < PV → (resolvePenetration f PV AV).triplets ≠ [])
    ∧ (∀ i, i < (resolvePenetration f PV AV).triplets.length →
        (((resolvePenetration f PV AV).triplets).getD i dfltTriplet).attackerPV = PV - 2 * i)
    ∧ (∀ i, i + 1 < (resolvePenetration f PV AV).triplets.length →
        (((resolvePenetration f PV AV).triplets).getD i dfltTriplet).allPassed = true)
    ∧ (∀ t ∈ (resolvePenetration f PV AV).triplets, 0 < t.attackerPV)
    ∧ (∀ t, ((resolvePenetration f PV AV).triplets).getLast? = some t →
        t.allPassed = true → (resolvePenetration f PV AV).finalPV ≤ 0) := by
  obtain ⟨A, B, C, D, E, F, G, H⟩ :=
    resolvePenetrationAux_spec f AV PV.toNat PV le_rfl 0
  exact ⟨rfl, A, B, C, D, E, F, G, H⟩

/-- Witness for C3: with a supply of constant total-1 singlets, PV 10 and
AV 6, four triplets are rolled and the third is rolled at effective
PV 10 − 2·2 = 6. -/
theorem C3_penetration_sequence_witness :
    ((resolvePenetration (fun _ => mkSinglet [3]) 10 6).triplets.getD 2 dfltTriplet).attackerPV
      = 10 - 2 * 2
    ∧ ((fun (_ : Nat) => mkSinglet [3]) 0).total = 1 := by
  refine ⟨(C3_penetration_sequence (fun _ => mkSinglet [3]) 10 6).2.2.2.2.2.1 2 ?_, by decide⟩
  simp [resolvePenetration, resolvePenetrationAux, rollQudTriplet, mkSinglet]

/-! ## Data model: body parts, items, system data (actor.mjs, bodyparts.mjs) -/

/-- Per-part natural armor written by the natural-armor pass
(`part.naturalArmor = { av, source }`). -/
structure NaturalArmor where
  av : Int
  source : String
  deriving Repr, DecidableEq

/-- Static per-type properties copied onto a part at creation
(`partType.properties`). -/
structure PartProps where
  mortal : Bool
  appendage : Bool
  mobility : Int
  usuallyOn : Option String
  attackChance : Option Int
  deriving Repr, DecidableEq

/-- A body part node as stored in `system.bodyParts[id]`.  `naturalArmor`
defaults to av 0 (the JS object simply lacks the field until the pipeline
writes it), `offhandChance` to `none` (unset). -/
structure BodyPart where
  id : String
  type : String
  variant : String
  laterality : String
  parent : Option String
  children : List String
  equipment : Option String
  properties : PartProps
  chimeraOrigin : Bool
  naturalArmor : NaturalArmor := ⟨0, ""⟩
  hasWings : Bool := false
  offhandChance : Option Int := none
  deriving Repr, DecidableEq

/-- One stat bonus entry of a mutation (`bonuses.carryCapacity` etc.):
a type tag (`flat` / `percent` / `formula`), a value, and — for formula
bonuses — the function of the mutation level that `eval` of the formula
string computes. -/
structure StatBonus where
  type : String
  value : Int
  formula : Option (Int → Int)

/-- The `statBonuses` bundle of a mutation item. -/
structure StatBonuses where
  carryCapacity : Option StatBonus
  movementSpeed : Option StatBonus
  quickness : Option StatBonus

/-- The `naturalWeapon` descriptor of a mutation item. -/
structure NaturalWeapon where
  enabled : Bool
  bodyPartTypes : List String
  attackChance : Int
  damageFormula : String
  pv : Int
  deriving Repr, DecidableEq

/-- The `providesArmor` descriptor of a mutation item. -/
structure ProvidesArmor where
  enabled : Bool
  bodyPartType : String
  deriving Repr, DecidableEq

/-- The `resourceTracking` bundle of a mutation item (quill count). -/
structure ResourceTracking where
  enabled : Bool
  current : Int
  deriving Repr, DecidableEq

/-- One entry of a mutation's `bodyModifications`.  `partType` embeds the
JS field `type` (the body-part type to add); `variant` uses `""` for a JS
`undefined`/absent variant. -/
structure BodyMod where
  action : String
  targetType : String
  newType : String
  preserveEquipment : Bool
  parent : String
  partType : String
  variant : String
  laterality : String
  withChildren : List String
  chimeraOrigin : Bool
  deriving Repr, DecidableEq

/-- `item.system` for the item kinds the core reads: armor/weapon numeric
fields and the mutation descriptors. -/
structure ItemSystem where
  equipped : Bool
  weight : Int
  quantity : Int
  av : Int
  dvModifier : Int
  slot : String
  pv : Int
  damage : String
  isActive : Bool
  level : Int
  statBonuses : Option StatBonuses
  naturalWeapon : Option NaturalWeapon
  providesArmor : Option ProvidesArmor
  addedBodyParts : List String
  bodyModifications : List BodyMod
  resourceTracking : Option ResourceTracking

/-- An owned item document. -/
structure Item where
  id : String
  name : String
  type : String
  system : ItemSystem

/-- `this.items.get(id)`: id lookup in the actor's item collection. -/
def itemsGet (items : List Item) (id : String) : Option Item :=
  items.find? (fun it => it.id = id)

/-- An attribute with its raw value and derived modifier. -/
structure AttrVal where
  value : Int
  mod : Int
  deriving Repr, DecidableEq

/-- The six attributes of `system.attributes`. -/
structure Attributes where
  strength : AttrVal
  agility : AttrVal
  toughness : AttrVal
  intelligence : AttrVal
  willpower : AttrVal
  ego : AttrVal
  deriving Repr, DecidableEq

/-- `system.combat`. -/
structure Combat where
  dv : Int
  pv : Int
  ma : Int
  av : Int
  mainHandId : Option String
  deriving Repr, DecidableEq

/-- One entry of the HP ledger `system.health.hpHistory`. -/
structure HPEntry where
  level : Int
  roll : Int
  modifier : Int
  total : Int
  deriving Repr, DecidableEq

/-- `system.health`. -/
structure Health where
  value : Int
  max : Int
  hpHistory : List HPEntry
  deriving Repr, DecidableEq

/-- `system.carryCapacity`. -/
structure CarryCapacity where
  max : Int
  current : Int
  overburdened : Bool
  deriving Repr, DecidableEq

/-- `system.skillPoints`. -/
structure SkillPoints where
  total : Int
  spent : Int
  available : Int
  deriving Repr, DecidableEq

/-- `system.hpRegen`; the rate is an exact rational (JS float
`numerator / 100`). -/
structure HpRegen where
  rate : ℚ
  deriving Repr, DecidableEq

/-- `system.cooldownReduction`. -/
structure CooldownReduction where
  reductionPercent : Int
  minimumCooldown : Int
  deriving Repr, DecidableEq

/-- `system.movement`, created on demand by the mutation-bonus pass. -/
structure Movement where
  speedBonus : Int
  deriving Repr, DecidableEq

/-- `system.quickness`, created on demand by the mutation-bonus pass. -/
structure Quickness where
  bonus : Int
  deriving Repr, DecidableEq

/-- `system.skills` (only the multiweapon-fighting tier is read). -/
structure Skills where
  multiweaponFightingTier : Nat
  deriving Repr, DecidableEq

/-- The actor's `system` data.  `level` embeds `system.level.value`;
`bodyParts` is the id-keyed object embedded as an association list in
key-insertion order. -/
structure SystemData where
  attributes : Attributes
  combat : Combat
  health : Health
  level : Int
  carryCapacity : CarryCapacity
  skillPoints : SkillPoints
  characterType : String
  hpRegen : HpRegen
  cooldownReduction : CooldownReduction
  movement : Option Movement
  quickness : Option Quickness
  bodyParts : List (String × BodyPart)
  bodyRoot : String
  skills : Skills

/-- An actor: its system data and owned items.  `idCounter` embeds the
module-global body-part id counter of bodyparts.mjs. -/
structure Creature where
  system : SystemData
  items : List Item
  idCounter : Nat

/-! ## Equipment averaging (`_applyEquipmentBonuses`) -/

/-- A part's AV contribution: equipped armor's `av` (0 when the slot is
empty, the item is missing, or it is not armor), plus the part's natural
armor when nonzero (the JS truthiness guard `part.naturalArmor.av`). -/
def partAVContribution (items : List Item) (part : BodyPart) : Int :=
  let partAV : Int :=
    match part.equipment with
    | none => 0
    | some eid =>
      match itemsGet items eid with
      | none => 0
      | some it => if it.type = "armor" then it.system.av else 0
  if part.naturalArmor.av ≠ 0 then partAV + part.naturalArmor.av else partAV

/-- A part's DV contribution: equipped armor's `dvModifier`, else 0. -/
def partDVContribution (items : List Item) (part : BodyPart) : Int :=
  match part.equipment with
  | none => 0
  | some eid =>
    match itemsGet items eid with
    | none => 0
    | some it => if it.type = "armor" then it.system.dvModifier else 0

/-- One step of building `partsByType`: append the part to its type's
group, creating the group if the type is new (JS object key insertion). -/
def addToGroups (gs : List (String × List BodyPart)) (p : BodyPart) :
    List (String × List BodyPart) :=
  if gs.any (fun g => g.1 = p.type) then
    gs.map (fun g => if g.1 = p.type then (g.1, g.2 ++ [p]) else g)
  else
    gs ++ [(p.type, [p])]

/-- The `partsByType` dictionary of `_applyEquipmentBonuses`, embedded as
an association list in key-insertion order. -/
def groupPartsByType (parts : List BodyPart) : List (String × List BodyPart) :=
  parts.foldl addToGroups []

/-- `Math.floor` on an exact rational. -/
def jsFloor (q : ℚ) : Int := q.floor

theorem jsFloor_eq (q : ℚ) : jsFloor q = ⌊q⌋ := rfl

/-- Average of a list of integer contributions (`sum / count`). -/
def listAvg (xs : List Int) : ℚ := (xs.sum : ℚ) / (xs.length : ℚ)

/-- The per-group body of the `_applyEquipmentBonuses` loop: skip empty
groups, otherwise add the group's average AV and average DV to the
running totals. -/
def bonusFoldStep (items : List Item) (acc : ℚ × ℚ) (g : String × List BodyPart) : ℚ × ℚ :=
  if g.2.length = 0 then acc
  else
    let avValues := g.2.map (partAVContribution items)
    let dvValues := g.2.map (partDVContribution items)
    if avValues.length > 0 then
      (acc.1 + listAvg avValues, acc.2 + listAvg dvValues)
    else acc

/-- `_applyEquipmentBonuses`: group parts by type, average each group's
AV/DV contributions, sum the averages, floor, and write
`combat.av = floor(totalAV)` and `combat.dv += floor(totalDV)`. -/
def applyEquipmentBonuses (items : List Item) (sys : SystemData) : SystemData :=
  let groups := groupPartsByType (sys.bodyParts.map Prod.snd)
  let totals : ℚ × ℚ := groups.foldl (bonusFoldStep items) (0, 0)
  { sys with combat :=
      { sys.combat with
        av := jsFloor totals.1
        dv := sys.combat.dv + jsFloor totals.2 } }

/-- The body-part types present, in first-occurrence order. -/
def typeKeys (parts : List BodyPart) : List String :=
  parts.foldl (fun acc p => if p.type ∈ acc then acc else acc ++ [p.type]) []

/-- Spec-side total AV: sum over types present of the average AV
contribution of the parts of that type. -/
def specTotalAV (items : List Item) (parts : List BodyPart) : ℚ :=
  ((typeKeys parts).map
    (fun t => listAvg ((parts.filter (fun p => p.type = t)).map (partAVContribution items)))).sum

/-- Spec-side total DV bonus: sum over types present of the average
dodge-modifier contribution of the parts of that type. -/
def specTotalDV (items : List Item) (parts : List BodyPart) : ℚ :=
  ((typeKeys parts).map
    (fun t => listAvg ((parts.filter (fun p => p.type = t)).map (partDVContribution items)))).sum

theorem mem_typeKeys_aux (parts : List BodyPart) :
    ∀ (acc : List String) (x : String),
      (x ∈ parts.foldl (fun acc p => if p.type ∈ acc then acc else acc ++ [p.type]) acc ↔
        x ∈ acc ∨ ∃ q ∈ parts, q.type = x) := by
  induction parts with
  | nil => intro acc x; simp
  | cons p ps ih =>
    intro acc x
    simp only [List.foldl_cons]
    rw [ih]
    by_cases h : p.type ∈ acc
    · simp only [if_pos h]
      constructor
      · rintro (hx | ⟨q, hq1, hq2⟩)
        · exact Or.inl hx
        · exact Or.inr ⟨q, List.mem_cons_of_mem _ hq1, hq2⟩
      · rintro (hx | ⟨q, hq1, hq2⟩)
        · exact Or.inl hx
        · rcases List.mem_cons.mp hq1 with rfl | hmem
          · exact Or.inl (hq2 ▸ h)
          · exact Or.inr ⟨q, hmem, hq2⟩
    · simp only [if_neg h, List.mem_append, List.mem_singleton]
      constructor
      · rintro ((hx | rfl) | ⟨q, hq1, hq2⟩)
        · exact Or.inl hx
        · exact Or.inr ⟨p, List.mem_cons_self _ _, rfl⟩
        · exact Or.inr ⟨q, List.mem_cons_of_mem _ hq1, hq2⟩
      · rintro (hx | ⟨q, hq1, hq2⟩)
        · exact Or.inl (Or.inl hx)
        · rcases List.mem_cons.mp hq1 with rfl | hmem
          · exact Or.inl (Or.inr hq2.symm)
          · exact Or.inr ⟨q, hmem, hq2⟩

theorem mem_typeKeys (parts : List BodyPart) (x : String) :
    x ∈ typeKeys parts ↔ ∃ q ∈ parts, q.type = x := by
  rw [typeKeys, mem_typeKeys_aux]
  simp

theorem typeKeys_append_singleton (ps : List BodyPart) (p : BodyPart) :
    typeKeys (ps ++ [p]) =
      if p.type ∈ typeKeys ps then typeKeys ps else typeKeys ps ++ [p.type] := by
  rw [typeKeys, typeKeys, List.foldl_append]
  rfl

/-- The grouping dictionary built by `_applyEquipmentBonuses` holds, for
each type in first-occurrence order, exactly the parts of that type. -/
theorem groupPartsByType_eq (parts : List BodyPart) :
    groupPartsByType parts =
      (typeKeys parts).map (fun t => (t, parts.filter (fun p => p.type = t))) := by
  induction parts using List.reverseRecOn with
  | nil => rfl
  | append_singleton ps p ih =>
    have hgroup : groupPartsByType (ps ++ [p]) = addToGroups (groupPartsByType ps) p := by
      rw [groupPartsByType, groupPartsByType, List.foldl_append]
      rfl
    rw [hgroup, ih, typeKeys_append_singleton]
    by_cases hmem : p.type ∈ typeKeys ps
    · rw [if_pos hmem, addToGroups]
      have hany : (((typeKeys ps).map
          (fun t => (t, ps.filter (fun q => q.type = t)))).any
            (fun g => g.1 = p.type)) = true := by
        simp only [List.any_eq_true, List.mem_map]
        exact ⟨(p.type, ps.filter (fun q => q.type = p.type)), ⟨p.type, hmem, rfl⟩, by simp⟩
      rw [if_pos hany, List.map_map]
      apply List.map_congr_left
      intro t _
      by_cases ht : t = p.type
      · subst ht
        simp [List.filter_append]
      · have ht' : ¬ (p.type = t) := fun hc => ht hc.symm
        simp [ht, ht', List.filter_append]
    · rw [if_neg hmem, addToGroups]
      have hany : (((typeKeys ps).map
          (fun t => (t, ps.filter (fun q => q.type = t)))).any
            (fun g => g.1 = p.type)) = false := by
        rw [List.any_eq_false]
        intro g hg
        rcases List.mem_map.mp hg with ⟨t', ht', heq⟩
        cases heq
        intro hc
        have ht2 : t' = p.type := of_decide_eq_true hc
        subst ht2
        exact hmem ht'
      rw [if_neg (by simp [hany]), List.map_append]
      congr 1
      · apply List.map_congr_left
        intro t ht
        have ht' : ¬ (p.type = t) := by
          rintro rfl
          exact hmem ht
        simp [List.filter_append, ht']
      · have hnil : ps.filter (fun q => q.type = p.type) = [] := by
          rw [List.filter_eq_nil_iff]
          intro q hq hc
          exact hmem ((mem_typeKeys ps p.type).mpr ⟨q, hq, of_decide_eq_true hc⟩)
        simp [List.filter_append, hnil]

theorem bonusFold_eq (items : List Item) :
    ∀ (gs : List (String × List BodyPart)) (a b : ℚ),
      (∀ g ∈ gs, g.2 ≠ []) →
      gs.foldl (bonusFoldStep items) (a, b) =
        (a + (gs.map (fun g => listAvg (g.2.map (partAVContribution items)))).sum,
         b + (gs.map (fun g => listAvg (g.2.map (partDVContribution items)))).sum) := by
  intro gs
  induction gs with
  | nil => intro a b _; simp
  | cons g gs ih =>
    intro a b hne
    have h1 : g.2 ≠ [] := hne g (List.mem_cons_self _ _)
    have hlen : ¬ (g.2.length = 0) := by simpa [List.length_eq_zero] using h1
    have hstep : bonusFoldStep items (a, b) g =
        (a + listAvg (g.2.map (partAVContribution items)),
         b + listAvg (g.2.map (partDVContribution items))) := by
      simp [bonusFoldStep, hlen, Nat.pos_of_ne_zero hlen]
    rw [List.foldl_cons, hstep, ih _ _ (fun g hg => hne g (List.mem_cons_of_mem _ hg))]
    simp only [List.map_cons, List.sum_cons, Prod.mk.injEq]
    exact ⟨by ring, by ring⟩

theorem groups_nonempty (parts : List BodyPart) :
    ∀ g ∈ groupPartsByType parts, g.2 ≠ [] := by
  intro g hg
  rw [groupPartsByType_eq] at hg
  rcases List.mem_map.mp hg with ⟨t, ht, rfl⟩
  rcases (mem_typeKeys parts t).mp ht with ⟨q, hq, hqt⟩
  have hmemf : q ∈ parts.filter (fun p => p.type = t) :=
    List.mem_filter.mpr ⟨hq, by simp [hqt]⟩
  have hne : parts.filter (fun p => p.type = t) ≠ [] := List.ne_nil_of_mem hmemf
  exact fun hc => hne (by simpa using hc)

/-- Test fixture: a plain body part of the given id and type. -/
def samplePart (i t : String) : BodyPart :=
  { id := i, type := t, variant := t, laterality := "", parent := none, children := [],
    equipment := none, properties := ⟨true, false, 0, none, none⟩, chimeraOrigin := false }

/-- Test fixture: neutral attribute block (all values 16, modifier 0). -/
def sampleAttrs : Attributes :=
  ⟨⟨16, 0⟩, ⟨16, 0⟩, ⟨16, 0⟩, ⟨16, 0⟩, ⟨16, 0⟩, ⟨16, 0⟩⟩

/-- Test fixture: a system-data record around the given body parts. -/
def sampleSystem (parts : List (String × BodyPart)) : SystemData :=
  { attributes := sampleAttrs
    combat := ⟨6, 4, 4, 0, none⟩
    health := ⟨16, 16, []⟩
    level := 1
    carryCapacity := ⟨240, 0, false⟩
    skillPoints := ⟨0, 0, 0⟩
    characterType := "Mutant"
    hpRegen := ⟨0⟩
    cooldownReduction := ⟨0, 5⟩
    movement := none
    quickness := none
    bodyParts := parts
    bodyRoot := "p3"
    skills := ⟨0⟩ }

/-- Test fixture: an armor item of the given id and armor value. -/
def sampleArmor (i : String) (av : Int) : Item :=
  { id := i, name := i, type := "armor",
    system :=
      { equipped := true, weight := 0, quantity := 1, av := av, dvModifier := 0,
        slot := "", pv := 0, damage := "", isActive := false, level := 0,
        statBonuses := none, naturalWeapon := none, providesArmor := none,
        addedBodyParts := [], bodyModifications := [], resourceTracking := none } }

/-- Test fixture for the C1 example: armor of AV 4 and AV 3. -/
def c1Items : List Item := [sampleArmor "a1" 4, sampleArmor "a3" 3]

/-- Test fixture for the C1 example: two Arm parts (armor AV 4 and nothing)
and one Body part (armor AV 3). -/
def c1Parts : List (String × BodyPart) :=
  [("p1", { samplePart "p1" "Arm" with equipment := some "a1" }),
   ("p2", samplePart "p2" "Arm"),
   ("p3", { samplePart "p3" "Body" with equipment := some "a3" })]

/-- **C1.** `_applyEquipmentBonuses` sets the creature's armor value to
the floor of the sum, over body-part types present, of the per-type-group
average of each part's armor contribution (equipped armor's av plus that
part's natural-armor av), and adds the identically computed dodge bonus
to dodge; in particular two Arm parts with armor values 4 and 0 plus one
Body part with armor value 3 yield total AV = 5, never 7. -/
theorem C1_equipment_averaging (items : List Item) (sys : SystemData) :
    ((applyEquipmentBonuses items sys).combat.av =
        jsFloor (specTotalAV items (sys.bodyParts.map Prod.snd)))
    ∧ ((applyEquipmentBonuses items sys).combat.dv =
        sys.combat.dv + jsFloor (specTotalDV items (sys.bodyParts.map Prod.snd)))
    ∧ ((applyEquipmentBonuses c1Items (sampleSystem c1Parts)).combat.av = 5
        ∧ (applyEquipmentBonuses c1Items (sampleSystem c1Parts)).combat.av ≠ 7) := by
  have hfold := bonusFold_eq items (groupPartsByType (sys.bodyParts.map Prod.snd)) 0 0
    (groups_nonempty _)
  have hex : (applyEquipmentBonuses c1Items (sampleSystem c1Parts)).combat.av = 5 := by
    simp [applyEquipmentBonuses, c1Items, c1Parts, sampleSystem, samplePart, sampleArmor,
      groupPartsByType, addToGroups, bonusFoldStep, partAVContribution, partDVContribution,
      itemsGet, listAvg, jsFloor_eq, List.find?]
    norm_num
  refine ⟨?_, ?_, hex, by rw [hex]; decide⟩
  · show jsFloor
        (((groupPartsByType (sys.bodyParts.map Prod.snd)).foldl (bonusFoldStep items) (0, 0)).1)
      = jsFloor (specTotalAV items (sys.bodyParts.map Prod.snd))
    rw [hfold, groupPartsByType_eq, specTotalAV]
    simp only [zero_add, List.map_map]
    rfl
  · show sys.combat.dv + jsFloor
        (((groupPartsByType (sys.bodyParts.map Prod.snd)).foldl (bonusFoldStep items) (0, 0)).2)
      = sys.combat.dv + jsFloor (specTotalDV items (sys.bodyParts.map Prod.snd))
    rw [hfold, groupPartsByType_eq, specTotalDV]
    simp only [zero_add, List.map_map]
    rfl

/-! ## HP ledger (`_calculateHP`) -/

/-- The health rewrite of `_calculateHP`, as a function of the level, the
toughness value and modifier, and the previous health record. -/
def hpCore (level toughValue toughMod : Int) (h : Health) : Health :=
  if level = 1 then
    let hist :=
      if h.hpHistory.length = 0 then
        [{ level := 1, roll := toughValue, modifier := toughMod, total := toughValue }]
      else h.hpHistory
    let newValue := if h.value > toughValue then toughValue else h.value
    { value := newValue, max := toughValue, hpHistory := hist }
  else
    match h.hpHistory with
    | [] =>
      let newValue := if h.value > toughValue then toughValue else h.value
      { value := newValue, max := toughValue, hpHistory := [] }
    | e0 :: rest =>
      let rest' := rest.map (fun e => { e with modifier := toughMod, total := e.roll + toughMod })
      let newMax := toughValue + (rest.map (fun e => e.roll + toughMod)).sum
      let newValue := if h.value > newMax then newMax else h.value
      { value := newValue, max := newMax, hpHistory := e0 :: rest' }

/-- `_calculateHP`: at level 1 max HP is the toughness value (seeding the
ledger when empty); at other levels every ledger entry after the first is
rewritten to `stored roll + current toughness modifier` and max HP is the
toughness value plus the rewritten gains.  Current HP is clamped down to
the fresh max. -/
def calculateHP (sys : SystemData) : SystemData :=
  { sys with health := hpCore sys.level sys.attributes.toughness.value sys.attributes.toughness.mod sys.health }

/-- Test fixture for C5: level 2, toughness 20 (modifier +2), a ledger
whose level-2 entry was rolled as 3 under an earlier modifier +1. -/
def c5sys : SystemData :=
  { sampleSystem [] with
    level := 2
    attributes := { sampleAttrs with toughness := ⟨20, 2⟩ }
    health := ⟨16, 20, [⟨1, 16, 0, 16⟩, ⟨2, 3, 1, 4⟩]⟩ }

/-- **C5.** At level ≥ 2 the recomputation rewrites every ledger entry
beyond the level-1 entry to `stored roll + current toughness modifier`
(stored roll and level unchanged, first entry untouched), sets max HP to
the current toughness value plus the sum of the rewritten totals, and
clamps current HP down to the fresh max exactly when it exceeds it. -/
theorem C5_hp_ledger (sys : SystemData) (hlevel : 2 ≤ sys.level) :
    ((calculateHP sys).health.hpHistory.length = sys.health.hpHistory.length)
    ∧ ((calculateHP sys).health.hpHistory.get? 0 = sys.health.hpHistory.get? 0)
    ∧ (∀ i e e', 1 ≤ i → sys.health.hpHistory.get? i = some e →
        (calculateHP sys).health.hpHistory.get? i = some e' →
        e'.roll = e.roll ∧ e'.modifier = sys.attributes.toughness.mod
          ∧ e'.total = e.roll + sys.attributes.toughness.mod ∧ e'.level = e.level)
    ∧ ((calculateHP sys).health.max =
        sys.attributes.toughness.value
          + (((calculateHP sys).health.hpHistory.drop 1).map HPEntry.total).sum)
    ∧ (sys.health.value > (calculateHP sys).health.max →
        (calculateHP sys).health.value = (calculateHP sys).health.max)
    ∧ (sys.health.value ≤ (calculateHP sys).health.max →
        (calculateHP sys).health.value = sys.health.value) := by
  have hne : ¬ (sys.level = 1) := by omega
  rcases hh : sys.health.hpHistory with _ | ⟨e0, rest⟩
  · simp only [calculateHP, hpCore, if_neg hne, hh]
    refine ⟨by simp, by simp, ?_, by simp, ?_, ?_⟩
    · intro i e e' _ he _
      simp at he
    · intro hgt
      rw [if_pos hgt]
    · intro hle
      rw [if_neg (by omega)]
  · simp only [calculateHP, hpCore, if_neg hne, hh]
    refine ⟨by simp, by simp, ?_, ?_, ?_, ?_⟩
    · intro i e e' hi he he'
      rcases i with _ | j
      · omega
      · simp only [List.get?_eq_getElem?, List.getElem?_cons_succ, List.getElem?_map] at he he'
        rw [he] at he'
        simp only [Option.map_some', Option.some.injEq] at he'
        subst he'
        exact ⟨rfl, rfl, rfl, rfl⟩
    · simp only [List.drop_succ_cons, List.drop_zero, List.map_map]
      rfl
    · intro hgt
      rw [if_pos hgt]
    · intro hle
      rw [if_neg (by omega)]

/-- Witness for C5 at the fixture: the level-2 entry rolled 3 under
modifier +1 is rewritten to modifier +2, total 5, roll unchanged, and
max HP is toughness 20 plus the rewritten gain 5. -/
theorem C5_hp_ledger_witness :
    (2 : Int) ≤ c5sys.level
    ∧ (calculateHP c5sys).health.max =
        c5sys.attributes.toughness.value
          + (((calculateHP c5sys).health.hpHistory.drop 1).map HPEntry.total).sum
    ∧ (calculateHP c5sys).health.hpHistory.get? 1 = some ⟨2, 3, 2, 5⟩
    ∧ (calculateHP c5sys).health.max = 25 :=
  ⟨by decide, (C5_hp_ledger c5sys (by decide)).2.2.2.1, by decide, by decide⟩

/-! ## Body hierarchy structural operations (bodyparts.mjs) -/

/-- The id-keyed `bodyParts` object, embedded as an association list in
key-insertion order. -/
abbrev BodyParts := List (String × BodyPart)

/-- `bodyParts[id]` object indexing. -/
def bpLookup (parts : BodyParts) (id : String) : Option BodyPart :=
  (parts.find? (fun kv => kv.1 = id)).map Prod.snd

/-- The recursive `collectDescendants` of `removeBodyPart`: for each child
of `i`, record the child then recurse into it (pre-order).  The JS
recursion is unbounded; the `fuel` argument makes it total, and
`removeBodyPart` passes fuel `parts.length + 1`, which is not exhausted
on any acyclic hierarchy. -/
def collectDescendants (parts : BodyParts) : Nat → String → List String
  | 0, _ => []
  | fuel + 1, i =>
    match bpLookup parts i with
    | none => []
    | some p => p.children.flatMap (fun c => c :: collectDescendants parts fuel c)

/-- The parent's-children update of `removeBodyPart`
(`parent.children = parent.children.filter(id => id !== partId)`),
applied to the entry keyed `pid`. -/
def parentFix (pid partId : String) (kv : String × BodyPart) : String × BodyPart :=
  if kv.1 = pid then
    (kv.1, { kv.2 with children := kv.2.children.filter (fun c => c ≠ partId) })
  else kv

/-- `removeBodyPart`: no-op returning `[]` when the id is absent;
otherwise collect the transitive descendants, detach the id from its
parent's children, delete the id and all descendants, and return the
removed ids. -/
def removeBodyPart (parts : BodyParts) (partId : String) : BodyParts × List String :=
  match bpLookup parts partId with
  | none => (parts, [])
  | some part =>
    let descendants := collectDescendants parts (parts.length + 1) partId
    let removedIds := partId :: descendants
    let parts1 :=
      match part.parent with
      | none => parts
      | some pid => parts.map (parentFix pid partId)
    let parts2 := parts1.filter (fun kv => kv.1 ∉ removedIds)
    (parts2, removedIds)

/-- Spec-side single parent-child step: `c` is a child of `i` in the
hierarchy.  Transitive descendants are `Relation.TransGen` of this. -/
def childStep (parts : BodyParts) (i c : String) : Prop :=
  ∃ p, bpLookup parts i = some p ∧ c ∈ p.children

theorem bpLookup_filter_mem (l : BodyParts) (k : String) (ids : List String)
    (hk : k ∉ ids) :
    bpLookup (l.filter (fun kv => kv.1 ∉ ids)) k = bpLookup l k := by
  induction l with
  | nil => rfl
  | cons kv l ih =>
    by_cases hkey : kv.1 = k
    · subst hkey
      rw [List.filter_cons, if_pos (by simpa using hk)]
      simp [bpLookup, List.find?]
    · rw [List.filter_cons]
      by_cases hkeep : kv.1 ∉ ids
      · rw [if_pos (by simpa using hkeep)]
        simpa [bpLookup, List.find?, hkey] using ih
      · rw [if_neg (by simpa using hkeep)]
        simpa [bpLookup, List.find?, hkey] using ih

theorem bpLookup_filter_not_mem (l : BodyParts) (k : String) (ids : List String)
    (hk : k ∈ ids) :
    bpLookup (l.filter (fun kv => kv.1 ∉ ids)) k = none := by
  induction l with
  | nil => rfl
  | cons kv l ih =>
    rw [List.filter_cons]
    by_cases hkeep : kv.1 ∉ ids
    · rw [if_pos (by simpa using hkeep)]
      have hkey : ¬ (kv.1 = k) := fun hc => hkeep (hc ▸ hk)
      simpa [bpLookup, List.find?, hkey] using ih
    · rw [if_neg (by simpa using hkeep)]
      exact ih

theorem parentFix_fst (pid partId : String) (kv : String × BodyPart) :
    (parentFix pid partId kv).1 = kv.1 := by
  rw [parentFix]; split <;> rfl

theorem bpLookup_parentFix_ne (l : BodyParts) (pid partId k : String) (hk : ¬ k = pid) :
    bpLookup (l.map (parentFix pid partId)) k = bpLookup l k := by
  induction l with
  | nil => rfl
  | cons kv l ih =>
    by_cases hkey : kv.1 = k
    · have hkv : parentFix pid partId kv = kv := by
        rw [parentFix, if_neg (by rw [hkey]; exact hk)]
      rw [bpLookup, bpLookup, List.map_cons, hkv,
        List.find?_cons_of_pos _ (by simpa using hkey),
        List.find?_cons_of_pos _ (by simpa using hkey)]
    · rw [bpLookup, bpLookup, List.map_cons,
        List.find?_cons_of_neg _ (by simpa [parentFix_fst] using hkey),
        List.find?_cons_of_neg _ (by simpa using hkey)]
      exact ih

theorem bpLookup_parentFix_eq (l : BodyParts) (pid partId : String) :
    bpLookup (l.map (parentFix pid partId)) pid =
      (bpLookup l pid).map
        (fun q => { q with children := q.children.filter (fun c => c ≠ partId) }) := by
  induction l with
  | nil => rfl
  | cons kv l ih =>
    by_cases hkey : kv.1 = pid
    · have hkv : parentFix pid partId kv =
          (kv.1, { kv.2 with children := kv.2.children.filter (fun c => c ≠ partId) }) := by
        rw [parentFix, if_pos hkey]
      rw [bpLookup, bpLookup, List.map_cons, hkv,
        List.find?_cons_of_pos _ (by simpa using hkey),
        List.find?_cons_of_pos _ (by simpa using hkey)]
      rfl
    · rw [bpLookup, bpLookup, List.map_cons,
        List.find?_cons_of_neg _ (by simpa [parentFix_fst] using hkey),
        List.find?_cons_of_neg _ (by simpa using hkey)]
      exact ih

theorem collectDescendants_sound (parts : BodyParts) :
    ∀ (fuel : Nat) (i c : String), c ∈ collectDescendants parts fuel i →
      Relation.TransGen (childStep parts) i c := by
  intro fuel
  induction fuel with
  | zero => intro i c hc; simp [collectDescendants] at hc
  | succ f ih =>
    intro i c hc
    rw [collectDescendants] at hc
    rcases hl : bpLookup parts i with _ | p
    · rw [hl] at hc; simp at hc
    · rw [hl] at hc
      rcases List.mem_flatMap.mp hc with ⟨c', hc', hmem⟩
      rcases List.mem_cons.mp hmem with rfl | hrec
      · exact Relation.TransGen.single ⟨p, hl, hc'⟩
      · exact Relation.TransGen.head ⟨p, hl, hc'⟩ (ih c' c hrec)

theorem childStep_key_D (parts : BodyParts) (D : String → Nat)
    (hD : ∀ kv ∈ parts, ∀ c ∈ kv.2.children, D c = D kv.1 + 1)
    {a b : String} (h : childStep parts a b) : D b = D a + 1 := by
  rcases h with ⟨p, hl, hb⟩
  rcases hfind : parts.find? (fun kv => kv.1 = a) with _ | kv
  · rw [bpLookup, hfind] at hl; simp at hl
  · have hmem := List.mem_of_find?_eq_some hfind
    have hkey : kv.1 = a := by simpa using List.find?_some hfind
    have hsnd : kv.2 = p := by
      rw [bpLookup, hfind] at hl; simpa using hl
    have := hD kv hmem b (by rw [hsnd]; exact hb)
    rw [hkey] at this
    exact this

theorem transGen_D_lt (parts : BodyParts) (D : String → Nat)
    (hD : ∀ kv ∈ parts, ∀ c ∈ kv.2.children, D c = D kv.1 + 1)
    {a c : String} (h : Relation.TransGen (childStep parts) a c) : D a < D c := by
  induction h with
  | single hstep => rw [childStep_key_D parts D hD hstep]; omega
  | tail _ hstep ih => rw [childStep_key_D parts D hD hstep]; omega

theorem transGen_target_key (parts : BodyParts)
    (hchild : ∀ kv ∈ parts, ∀ c ∈ kv.2.children, c ∈ parts.map Prod.fst)
    {a c : String} (h : Relation.TransGen (childStep parts) a c) :
    c ∈ parts.map Prod.fst := by
  rcases (Relation.TransGen.tail'_iff).mp h with ⟨b, _, hstep⟩
  rcases hstep with ⟨p, hl, hc⟩
  rcases hfind : parts.find? (fun kv => kv.1 = b) with _ | kv
  · rw [bpLookup, hfind] at hl; simp at hl
  · have hmem := List.mem_of_find?_eq_some hfind
    have hsnd : kv.2 = p := by
      rw [bpLookup, hfind] at hl; simpa using hl
    exact hchild kv hmem c (by rw [hsnd]; exact hc)

theorem collectDescendants_complete (parts : BodyParts) (D : String → Nat)
    (hD : ∀ kv ∈ parts, ∀ c ∈ kv.2.children, D c = D kv.1 + 1) :
    ∀ (fuel : Nat) (a c : String), Relation.TransGen (childStep parts) a c →
      D c < D a + fuel → c ∈ collectDescendants parts fuel a := by
  intro fuel
  induction fuel with
  | zero =>
    intro a c h hfuel
    have := transGen_D_lt parts D hD h
    omega
  | succ f ih =>
    intro a c h hfuel
    rcases (Relation.TransGen.head'_iff).mp h with ⟨b, hab, hbc⟩
    rcases hab with ⟨p, hl, hb⟩
    rw [collectDescendants, hl]
    rcases (Relation.reflTransGen_iff_eq_or_transGen.mp hbc) with rfl | htrans
    · exact List.mem_flatMap.mpr ⟨c, hb, List.mem_cons_self _ _⟩
    · have hDb : D b = D a + 1 := childStep_key_D parts D hD ⟨p, hl, hb⟩
      have : c ∈ collectDescendants parts f b := ih b c htrans (by omega)
      exact List.mem_flatMap.mpr ⟨b, hb, List.mem_cons_of_mem _ this⟩

/-- **C9.** On a well-formed hierarchy (witnessed by a depth function and
child-closure), `removeBodyPart` is a silent no-op for an absent id; for a
present id it returns exactly the id and its transitive descendants,
deletes exactly those entries, rewrites the parent's children list to drop
the id, and leaves every other surviving entry untouched. -/
theorem C9_removeBodyPart (parts : BodyParts) (partId : String)
    (D : String → Nat)
    (hD : ∀ kv ∈ parts, ∀ c ∈ kv.2.children, D c = D kv.1 + 1)
    (hDbound : ∀ k ∈ parts.map Prod.fst, D k ≤ parts.length)
    (hchild : ∀ kv ∈ parts, ∀ c ∈ kv.2.children, c ∈ parts.map Prod.fst) :
    (bpLookup parts partId = none → removeBodyPart parts partId = (parts, []))
    ∧ (∀ part, bpLookup parts partId = some part →
        (∀ x, x ∈ (removeBodyPart parts partId).2 ↔
            (x = partId ∨ Relation.TransGen (childStep parts) partId x))
        ∧ (∀ k, k ∈ (removeBodyPart parts partId).2 →
            bpLookup (removeBodyPart parts partId).1 k = none)
        ∧ (∀ k, ¬ k ∈ (removeBodyPart parts partId).2 →
            (part.parent = some k →
              bpLookup (removeBodyPart parts partId).1 k =
                (bpLookup parts k).map
                  (fun q => { q with children := q.children.filter (fun c => c ≠ partId) }))
            ∧ (¬ part.parent = some k →
              bpLookup (removeBodyPart parts partId).1 k = bpLookup parts k))) := by
  constructor
  · intro hnone
    simp [removeBodyPart, hnone]
  · intro part hsome
    have h2 : (removeBodyPart parts partId).2 =
        partId :: collectDescendants parts (parts.length + 1) partId := by
      simp only [removeBodyPart, hsome]
    have h1 : (removeBodyPart parts partId).1 =
        (match part.parent with
          | none => parts
          | some pid => parts.map (parentFix pid partId)).filter
          (fun kv => kv.1 ∉ partId :: collectDescendants parts (parts.length + 1) partId) := by
      simp only [removeBodyPart, hsome]
    refine ⟨?_, ?_, ?_⟩
    · intro x
      rw [h2]
      constructor
      · intro hx
        rcases List.mem_cons.mp hx with rfl | hdesc
        · exact Or.inl rfl
        · exact Or.inr (collectDescendants_sound parts _ partId x hdesc)
      · rintro (rfl | htrans)
        · exact List.mem_cons_self _ _
        · have hxkey : x ∈ parts.map Prod.fst := transGen_target_key parts hchild htrans
          have hxb : D x ≤ parts.length := hDbound x hxkey
          exact List.mem_cons_of_mem _
            (collectDescendants_complete parts D hD (parts.length + 1) partId x htrans
              (by omega))
    · intro k hk
      rw [h2] at hk
      rw [h1]
      exact bpLookup_filter_not_mem _ k _ hk
    · intro k hk
      rw [h2] at hk
      constructor
      · intro hpk
        rw [h1, hpk]
        rw [bpLookup_filter_mem _ k _ hk]
        exact bpLookup_parentFix_eq parts k partId
      · intro hpk
        rcases hp : part.parent with _ | pid
        · rw [h1, hp]
          exact bpLookup_filter_mem _ k _ hk
        · have hkp : ¬ k = pid := fun hc => hpk (by rw [hp, hc])
          rw [h1, hp]
          rw [bpLookup_filter_mem _ k _ hk]
          exact bpLookup_parentFix_ne parts pid partId k hkp

/-- Test fixture for C9: a two-node hierarchy, root `a` with child `b`. -/
def c9Parts : BodyParts :=
  [("a", { samplePart "a" "Body" with children := ["b"] }),
   ("b", { samplePart "b" "Arm" with parent := some "a" })]

/-- Witness for C9: removing `b` from the two-node fixture removes exactly
`["b"]`, `b` is gone afterwards, and `a` survives with its children list
emptied. -/
theorem C9_removeBodyPart_witness :
    bpLookup c9Parts "b" = some { samplePart "b" "Arm" with parent := some "a" }
    ∧ bpLookup (removeBodyPart c9Parts "b").1 "b" = none
    ∧ (removeBodyPart c9Parts "b").2 = ["b"]
    ∧ bpLookup (removeBodyPart c9Parts "b").1 "a" =
        some { samplePart "a" "Body" with children := [] } := by
  refine ⟨by decide, ?_, by decide, by decide⟩
  exact ((C9_removeBodyPart c9Parts "b" (fun k => if k = "a" then 0 else 1)
      (by decide) (by decide) (by decide)).2
      { samplePart "b" "Arm" with parent := some "a" } (by decide)).2.1 "b" (by decide)

/-! ## Body-part type catalog (config.mjs `CAVESOFQUD.bodyPartTypes`) -/

/-- One entry of the static body-part type catalog. -/
structure PartTypeConfig where
  name : String
  canEquip : Bool
  slotType : String
  canWield : Bool
  variants : List String
  properties : PartProps
  deriving Repr, DecidableEq

/-- `CAVESOFQUD.bodyPartTypes[t]`. -/
def bodyPartTypes (t : String) : Option PartTypeConfig :=
  if t = "Body" then
    some ⟨"Body", true, "body", false, ["Body", "Chassis", "Torso", "Core", "Shell", "Carapace"],
      ⟨true, false, 0, none, none⟩⟩
  else if t = "Head" then
    some ⟨"Head", true, "head", false,
      ["Head", "Skull", "Control Unit", "Nuclear Protrusion", "Ear", "Head Section", "Brain Case"],
      ⟨false, true, 0, some "Body", none⟩⟩
  else if t = "Face" then
    some ⟨"Face", true, "face", false,
      ["Face", "Sensory Nodule", "Eye", "Antennae", "Sensor Array", "Optics"],
      ⟨false, false, 0, some "Head", none⟩⟩
  else if t = "Back" then
    some ⟨"Back", true, "back", false,
      ["Back", "Case", "Membrane", "Blanket", "Carapace Back", "Shell"],
      ⟨false, false, 0, some "Body", none⟩⟩
  else if t = "Arm" then
    some ⟨"Arm", true, "arm", false,
      ["Arm", "Robo-Arm", "Armbone", "Stalk", "Tentacle Arm", "Limb"],
      ⟨false, true, 5, some "Body", none⟩⟩
  else if t = "Hand" then
    some ⟨"Hand", true, "hand", true,
      ["Hand", "Manipulator", "Claw", "Pincer", "Tentacle", "Paw", "Hoof"],
      ⟨false, true, 0, some "Arm", some 15⟩⟩
  else if t = "BurrowingClaw" then
    some ⟨"Burrowing Claw", true, "hand", true, ["Burrowing Claw"],
      ⟨false, true, 0, some "Arm", some 15⟩⟩
  else if t = "Feet" then
    some ⟨"Feet", true, "feet", false,
      ["Feet", "Footbones", "Legs", "Support Struts", "Hooves", "Pads", "Talons"],
      ⟨false, true, 10, some "Body", none⟩⟩
  else if t = "FloatingNearby" then
    some ⟨"Floating Nearby", true, "floating", false, ["Floating Nearby"],
      ⟨false, false, 0, some "Body", none⟩⟩
  else if t = "Tail" then
    some ⟨"Tail", false, "tail", false, ["Tail", "Tail Spine", "Stinger Tail"],
      ⟨false, true, 0, some "Body", none⟩⟩
  else if t = "Fin" then
    some ⟨"Fin", false, "fin", false, ["Fin", "Dorsal Fin", "Tail Fin"],
      ⟨false, true, 0, some "Body", none⟩⟩
  else if t = "Roots" then
    some ⟨"Roots", true, "roots", false, ["Roots", "Support Hyphae", "Mulch", "Stakes"],
      ⟨false, false, 0, some "Body", none⟩⟩
  else if t = "Tread" then
    some ⟨"Tread", true, "tread", false, ["Tread", "Wheels", "Tracks"],
      ⟨false, false, 15, some "Body", none⟩⟩
  else if t = "FungalOutcrop" then
    some ⟨"Fungal Outcrop", false, "fungal", false,
      ["Fungal Outcrop", "Lichen Patch", "Mushroom Cap"],
      ⟨false, false, 0, none, none⟩⟩
  else if t = "IcyOutcrop" then
    some ⟨"Icy Outcrop", false, "icy", false,
      ["Icy Outcrop", "Frost Formation", "Ice Shard"],
      ⟨false, false, 0, none, none⟩⟩
  else none

/-- `canEquipItem`: type-level capability lookup. -/
def canEquipItem (part : BodyPart) : Bool :=
  match bodyPartTypes part.type with
  | some ptc => ptc.canEquip
  | none => false

/-- `canWieldWeapon`: type-level capability lookup. -/
def canWieldWeapon (part : BodyPart) : Bool :=
  match bodyPartTypes part.type with
  | some ptc => ptc.canWield
  | none => false

/-! ## Body-part creation (bodyparts.mjs) -/

/-- `generateBodyPartId`, with the module-global counter made explicit
(the `Date.now()` component is omitted; only freshness matters). -/
def generateBodyPartId (n : Nat) : String × Nat :=
  ("bp_" ++ toString n, n + 1)

/-- `createBodyPart`.  A JS `null`/`undefined` variant is embedded as
`""` (it then defaults to the type's first variant).  Unknown types yield
`none` (JS logs an error and returns null). -/
def createBodyPart (type variant laterality : String) (parentId : Option String)
    (chimeraOrigin : Bool) (counter : Nat) : Option BodyPart × Nat :=
  match bodyPartTypes type with
  | none => (none, counter)
  | some partType =>
    let idc := generateBodyPartId counter
    (some { id := idc.1
            type := type
            variant := if variant = "" then partType.variants.headD "" else variant
            laterality := laterality
            parent := parentId
            children := []
            equipment := none
            properties := partType.properties
            chimeraOrigin := chimeraOrigin }, idc.2)

/-- JS object assignment `bodyParts[k] = v`: overwrite the entry if the
key exists, else append it. -/
def assocSet (parts : BodyParts) (k : String) (v : BodyPart) : BodyParts :=
  if parts.any (fun kv => kv.1 = k) then
    parts.map (fun kv => if kv.1 = k then (k, v) else kv)
  else parts ++ [(k, v)]

/-- `addBodyPart`: fails (returning `none`, hierarchy unchanged) when the
parent id is absent; otherwise creates a fresh leaf, stores it, and links
it into the parent's children. -/
def addBodyPart (parts : BodyParts) (type parentId variant laterality : String)
    (counter : Nat) : Option BodyPart × BodyParts × Nat :=
  match bpLookup parts parentId with
  | none => (none, parts, counter)
  | some _ =>
    match createBodyPart type variant laterality (some parentId) false counter with
    | (none, counter') => (none, parts, counter')
    | (some newPart, counter') =>
      let parts1 := assocSet parts newPart.id newPart
      let parts2 := parts1.map (fun kv =>
        if kv.1 = parentId then (kv.1, { kv.2 with children := kv.2.children ++ [newPart.id] })
        else kv)
      (some newPart, parts2, counter')

/-- Set the `chimeraOrigin` flag on the entry keyed `id`
(`mainPart.chimeraOrigin = true`). -/
def setChimera (parts : BodyParts) (id : String) : BodyParts :=
  parts.map (fun kv => if kv.1 = id then (kv.1, { kv.2 with chimeraOrigin := true }) else kv)

/-- The child-adding loop of `addBodyPartWithChildren`: each declared
child type is added under the main part (failures are skipped). -/
def addChildrenLoop (parentId laterality : String) (chimeraOrigin : Bool) :
    BodyParts → Nat → List String → List String × BodyParts × Nat
  | parts, counter, [] => ([], parts, counter)
  | parts, counter, childType :: rest =>
    match addBodyPart parts childType parentId "" laterality counter with
    | (none, parts', counter') => addChildrenLoop parentId laterality chimeraOrigin parts' counter' rest
    | (some childPart, parts', counter') =>
      let parts2 := if chimeraOrigin then setChimera parts' childPart.id else parts'
      let r := addChildrenLoop parentId laterality chimeraOrigin parts2 counter' rest
      (childPart.id :: r.1, r.2.1, r.2.2)

/-- `addBodyPartWithChildren`: add the main part (marking Chimera origin
when asked), then each declared child type in order; returns all added
ids. -/
def addBodyPartWithChildren (parts : BodyParts) (type parentId variant laterality : String)
    (withChildren : List String) (chimeraOrigin : Bool) (counter : Nat) :
    List String × BodyParts × Nat :=
  match addBodyPart parts type parentId variant laterality counter with
  | (none, parts', counter') => ([], parts', counter')
  | (some mainPart, parts', counter') =>
    let parts2 := if chimeraOrigin then setChimera parts' mainPart.id else parts'
    let r := addChildrenLoop mainPart.id laterality chimeraOrigin parts2 counter' withChildren
    (mainPart.id :: r.1, r.2.1, r.2.2)

/-! ## Mutation application and removal (actor.mjs) -/

/-- The `collectEquipment` recursion of `removeBodyPartMutation`: the
part's own equipped item id followed by its descendants', pre-order.
Totalized by fuel exactly like `collectDescendants`. -/
def collectEquipment (parts : BodyParts) : Nat → String → List String
  | 0, _ => []
  | fuel + 1, id =>
    match bpLookup parts id with
    | none => []
    | some p =>
      (match p.equipment with
        | some e => [e]
        | none => []) ++ p.children.flatMap (fun c => collectEquipment parts fuel c)

/-- `removeBodyPartMutation`: collect the equipment on the doomed subtree,
remove the subtree, and mark each collected item unequipped. -/
def removeBodyPartMutation (c : Creature) (partId : String) : Creature × List String :=
  match bpLookup c.system.bodyParts partId with
  | none => (c, [])
  | some _ =>
    let toUnequip := collectEquipment c.system.bodyParts (c.system.bodyParts.length + 1) partId
    let r := removeBodyPart c.system.bodyParts partId
    if r.2.length > 0 then
      let items' := c.items.map (fun it =>
        if it.id ∈ toUnequip ∧ it.system.equipped = true then
          { it with system := { it.system with equipped := false } }
        else it)
      ({ c with system := { c.system with bodyParts := r.1 }, items := items' }, r.2)
    else (c, r.2)

/-- The per-part rewrite of a `replace` body modification: parts of the
target type get the new type, and lose their equipment unless it is
preserved. -/
def replaceFun (mod : BodyMod) (kv : String × BodyPart) : String × BodyPart :=
  if kv.2.type = mod.targetType then
    (kv.1, { kv.2 with
              type := mod.newType
              equipment := if mod.preserveEquipment then kv.2.equipment else none })
  else kv

/-- One `bodyModifications` entry of `applyMutation`.  A `replace` action
rewrites the type (clearing equipment unless preserved) of every part of
the target type in place and records their ids; an `add` action resolves
the parent (the `random` and `Body` indirections) and adds the part with
its children.  `randParent`/`randType` stand for the random collaborators
`selectRandomParent` / `rollChimeraBodyPart`. -/
def applyModStep (randParent randType : String) (st : Creature × List String)
    (mod : BodyMod) : Creature × List String :=
  let c := st.1
  if mod.action = "replace" then
    let matchedIds := (c.system.bodyParts.filter (fun kv => kv.2.type = mod.targetType)).map Prod.fst
    let bodyParts' := c.system.bodyParts.map (replaceFun mod)
    ({ c with system := { c.system with bodyParts := bodyParts' } }, st.2 ++ matchedIds)
  else
    let parentId := if mod.parent = "random" then randParent
      else if mod.parent = "Body" then c.system.bodyRoot
      else mod.parent
    let partType := if mod.partType = "random" then randType else mod.partType
    let variant := if mod.variant = "auto" ∨ mod.variant = "" then "" else mod.variant
    let withChildren :=
      if mod.withChildren = [] ∧ mod.chimeraOrigin = true then
        if partType = "Arm" then ["Hand"]
        else if partType = "Head" then ["Face"]
        else []
      else mod.withChildren
    let r := addBodyPartWithChildren c.system.bodyParts partType parentId variant
      mod.laterality withChildren mod.chimeraOrigin c.idCounter
    let c' :=
      if r.1.length > 0 then
        { c with system := { c.system with bodyParts := r.2.1 }, idCounter := r.2.2 }
      else { c with idCounter := r.2.2 }
    (c', st.2 ++ r.1)

/-- `applyMutation`: guard on a mutation item, run every body
modification, then record the added ids on the item and activate it. -/
def applyMutation (c : Creature) (mutationId randParent randType : String) :
    Creature × List String :=
  match c.items.find? (fun it => it.id = mutationId) with
  | none => (c, [])
  | some mutationItem =>
    if mutationItem.type = "mutation" then
      let st := mutationItem.system.bodyModifications.foldl
        (applyModStep randParent randType) (c, [])
      let items' := st.1.items.map (fun it =>
        if it.id = mutationId then
          { it with system := { it.system with addedBodyParts := st.2, isActive := true } }
        else it)
      ({ st.1 with items := items' }, st.2)
    else (c, [])

/-- The per-part restore of a `replace` body modification on removal:
tracked parts of the new type get the original type back. -/
def restoreFun (mod : BodyMod) (addedParts : List String) (kv : String × BodyPart) :
    String × BodyPart :=
  if kv.2.type = mod.newType ∧ kv.1 ∈ addedParts then
    (kv.1, { kv.2 with type := mod.targetType })
  else kv

/-- One restore step of `removeMutation` for mutations with replace
actions: every part of the new type whose id the mutation tracked gets
its original type back. -/
def restoreModStep (addedParts : List String) (st : BodyParts × List String)
    (mod : BodyMod) : BodyParts × List String :=
  if mod.action = "replace" then
    let matchedIds := (st.1.filter
      (fun kv => kv.2.type = mod.newType ∧ kv.1 ∈ addedParts)).map Prod.fst
    let parts' := st.1.map (restoreFun mod addedParts)
    (parts', st.2 ++ matchedIds)
  else st

/-- The removal loop of `removeMutation` for add-mutations: cascade-remove
every tracked part. -/
def removeLoop : Creature → List String → Creature × List String
  | c, [] => (c, [])
  | c, pid :: rest =>
    let r := removeBodyPartMutation c pid
    let r' := removeLoop r.1 rest
    (r'.1, r.2 ++ r'.2)

/-- `removeMutation`: restore replaced types (for replace-mutations) or
delete the tracked added parts (otherwise), then clear the tracking and
deactivate the item. -/
def removeMutation (c : Creature) (mutationId : String) : Creature × List String :=
  match c.items.find? (fun it => it.id = mutationId) with
  | none => (c, [])
  | some m =>
    if m.type = "mutation" then
      let addedParts := m.system.addedBodyParts
      let modifications := m.system.bodyModifications
      let hasReplaceActions := modifications.any (fun mod => mod.action = "replace")
      let cr :=
        if hasReplaceActions then
          let r := modifications.foldl (restoreModStep addedParts) (c.system.bodyParts, [])
          ({ c with system := { c.system with bodyParts := r.1 } }, r.2)
        else
          removeLoop c addedParts
      let items' := cr.1.items.map (fun it =>
        if it.id = mutationId then
          { it with system := { it.system with addedBodyParts := [], isActive := false } }
        else it)
      ({ cr.1 with items := items' }, cr.2)
    else (c, [])

theorem find?_update_id (items : List Item) (mid : String) (g : Item → Item)
    (hg : ∀ it, (g it).id = it.id) (m : Item)
    (h : items.find? (fun it => it.id = mid) = some m) :
    (items.map (fun it => if it.id = mid then g it else it)).find? (fun it => it.id = mid)
      = some (g m) := by
  induction items with
  | nil => simp at h
  | cons it l ih =>
    by_cases hit : it.id = mid
    · rw [List.find?_cons_of_pos _ (by simpa using hit)] at h
      have hm : it = m := by simpa using h
      rw [List.map_cons, if_pos hit,
        List.find?_cons_of_pos _ (by simp [hg, hit])]
      rw [hm]
    · rw [List.find?_cons_of_neg _ (by simpa using hit)] at h
      rw [List.map_cons, if_neg hit,
        List.find?_cons_of_neg _ (by simpa using hit)]
      exact ih h

theorem eq_of_mem_keyNodup (parts : BodyParts)
    (hnd : (parts.map Prod.fst).Nodup) {kv kv' : String × BodyPart}
    (h1 : kv ∈ parts) (h2 : kv' ∈ parts) (hk : kv.1 = kv'.1) : kv = kv' := by
  induction parts with
  | nil => simp at h1
  | cons a l ih =>
    simp only [List.map_cons, List.nodup_cons] at hnd
    obtain ⟨ha, hl⟩ := hnd
    rcases List.mem_cons.mp h1 with rfl | h1' <;> rcases List.mem_cons.mp h2 with rfl | h2'
    · rfl
    · exact absurd (hk ▸ List.mem_map_of_mem Prod.fst h2') ha
    · have hmem : kv'.1 ∈ List.map Prod.fst l := hk ▸ List.mem_map_of_mem Prod.fst h1'
      exact absurd hmem ha
    · exact ih hl h1' h2'

theorem key_mem_filter_keys_iff (parts : BodyParts)
    (hnd : (parts.map Prod.fst).Nodup) (p : String × BodyPart → Bool)
    {kv : String × BodyPart} (hkv : kv ∈ parts) :
    (kv.1 ∈ (parts.filter p).map Prod.fst) ↔ p kv = true := by
  constructor
  · intro h
    rcases List.mem_map.mp h with ⟨kv', hkv', hk⟩
    have hmem := List.mem_of_mem_filter hkv'
    have heq : kv' = kv := eq_of_mem_keyNodup parts hnd hmem hkv hk
    rcases List.mem_filter.mp hkv' with ⟨_, hp⟩
    rwa [heq] at hp
  · intro hp
    exact List.mem_map_of_mem Prod.fst (List.mem_filter.mpr ⟨hkv, hp⟩)

theorem applyMutation_single_replace (c : Creature) (mid rp rt : String) (m : Item)
    (mod : BodyMod)
    (hfind : c.items.find? (fun it => it.id = mid) = some m)
    (hm : m.type = "mutation")
    (hmods : m.system.bodyModifications = [mod])
    (hact : mod.action = "replace") :
    applyMutation c mid rp rt =
      ({ c with
          system := { c.system with bodyParts := c.system.bodyParts.map (replaceFun mod) }
          items := c.items.map (fun it =>
            if it.id = mid then
              { it with system := { it.system with
                  addedBodyParts :=
                    (c.system.bodyParts.filter
                      (fun kv => kv.2.type = mod.targetType)).map Prod.fst
                  isActive := true } }
            else it) },
        (c.system.bodyParts.filter (fun kv => kv.2.type = mod.targetType)).map Prod.fst) := by
  simp [applyMutation, hfind, hmods, applyModStep, hact, hm]

theorem removeMutation_single_replace (c : Creature) (mid : String) (m : Item) (mod : BodyMod)
    (hfind : c.items.find? (fun it => it.id = mid) = some m)
    (hm : m.type = "mutation")
    (hmods : m.system.bodyModifications = [mod])
    (hact : mod.action = "replace") :
    removeMutation c mid =
      ({ c with
          system := { c.system with
            bodyParts := c.system.bodyParts.map (restoreFun mod m.system.addedBodyParts) }
          items := c.items.map (fun it =>
            if it.id = mid then
              { it with system := { it.system with addedBodyParts := [], isActive := false } }
            else it) },
        (c.system.bodyParts.filter
          (fun kv => kv.2.type = mod.newType ∧ kv.1 ∈ m.system.addedBodyParts)).map
          Prod.fst) := by
  simp [removeMutation, hfind, hmods, restoreModStep, hact, hm]

/-- **C8.** For a mutation whose single body modification replaces
Hand → BurrowingClaw, applying then removing it rewrites each body part
as follows: Hand parts keep their ids and get type Hand back (equipment
cleared unless preserved), every other part is untouched.  In particular
the id list and the (id, type) pairs are exactly those before the round
trip — no ids created or destroyed — and the mutation's tracking is
cleared. -/
theorem C8_replace_roundtrip (c : Creature) (mid rp rt : String) (m : Item) (mod : BodyMod)
    (hfind : c.items.find? (fun it => it.id = mid) = some m)
    (hm : m.type = "mutation")
    (hmods : m.system.bodyModifications = [mod])
    (hact : mod.action = "replace")
    (htt : mod.targetType = "Hand")
    (hnt : mod.newType = "BurrowingClaw")
    (hnd : (c.system.bodyParts.map Prod.fst).Nodup) :
    ((removeMutation (applyMutation c mid rp rt).1 mid).1.system.bodyParts =
        c.system.bodyParts.map (fun kv =>
          if kv.2.type = "Hand" then
            (kv.1, { kv.2 with
              equipment := if mod.preserveEquipment then kv.2.equipment else none })
          else kv))
    ∧ ((removeMutation (applyMutation c mid rp rt).1 mid).1.system.bodyParts.map Prod.fst =
        c.system.bodyParts.map Prod.fst)
    ∧ ((removeMutation (applyMutation c mid rp rt).1 mid).1.system.bodyParts.map
          (fun kv => (kv.1, kv.2.type)) =
        c.system.bodyParts.map (fun kv => (kv.1, kv.2.type)))
    ∧ (((removeMutation (applyMutation c mid rp rt).1 mid).1.items.find?
          (fun it => it.id = mid)).map (fun it => it.system.addedBodyParts) = some []) := by
  have happly := applyMutation_single_replace c mid rp rt m mod hfind hm hmods hact
  have hc1parts : (applyMutation c mid rp rt).1.system.bodyParts =
      c.system.bodyParts.map (replaceFun mod) := by rw [happly]
  have hc1items : (applyMutation c mid rp rt).1.items =
      c.items.map (fun it =>
        if it.id = mid then
          { it with system := { it.system with
              addedBodyParts :=
                (c.system.bodyParts.filter
                  (fun kv => kv.2.type = mod.targetType)).map Prod.fst
              isActive := true } }
        else it) := by rw [happly]
  have hfind1 : (applyMutation c mid rp rt).1.items.find? (fun it => it.id = mid) =
      some { m with system := { m.system with
        addedBodyParts :=
          (c.system.bodyParts.filter (fun kv => kv.2.type = mod.targetType)).map Prod.fst
        isActive := true } } := by
    rw [hc1items]
    exact find?_update_id c.items mid
      (fun it => { it with system := { it.system with
          addedBodyParts :=
            (c.system.bodyParts.filter (fun kv => kv.2.type = mod.targetType)).map Prod.fst
          isActive := true } })
      (fun it => rfl) m hfind
  have hremove := removeMutation_single_replace (applyMutation c mid rp rt).1 mid _ mod
    hfind1 hm hmods hact
  have hA : ({ m with system := { m.system with
        addedBodyParts :=
          (c.system.bodyParts.filter (fun kv => kv.2.type = mod.targetType)).map Prod.fst
        isActive := true } } : Item).system.addedBodyParts =
      (c.system.bodyParts.filter (fun kv => kv.2.type = mod.targetType)).map Prod.fst := rfl
  have hcRparts : (removeMutation (applyMutation c mid rp rt).1 mid).1.system.bodyParts =
      (c.system.bodyParts.map (replaceFun mod)).map
        (restoreFun mod
          ((c.system.bodyParts.filter (fun kv => kv.2.type = mod.targetType)).map Prod.fst)) := by
    rw [hremove, hA]
    simp only []
    rw [hc1parts]
  have hpoint : ∀ kv ∈ c.system.bodyParts,
      restoreFun mod
        ((c.system.bodyParts.filter (fun kv => kv.2.type = mod.targetType)).map Prod.fst)
        (replaceFun mod kv) =
      (if kv.2.type = "Hand" then
        (kv.1, { kv.2 with
          equipment := if mod.preserveEquipment then kv.2.equipment else none })
      else kv) := by
    intro kv hkv
    by_cases ht : kv.2.type = "Hand"
    · rw [replaceFun, if_pos (by rw [htt]; exact ht)]
      have hmemA : kv.1 ∈
          (c.system.bodyParts.filter (fun kv => kv.2.type = mod.targetType)).map Prod.fst :=
        (key_mem_filter_keys_iff c.system.bodyParts hnd _ hkv).mpr
          (by simp [htt, ht])
      rw [restoreFun, if_pos ⟨rfl, hmemA⟩, if_pos ht, htt]
      simp [ht]
    · rw [replaceFun, if_neg (fun hc => ht (by rw [← htt]; exact hc))]
      have hnotA : ¬ (kv.2.type = mod.newType ∧ kv.1 ∈
          (c.system.bodyParts.filter (fun kv => kv.2.type = mod.targetType)).map Prod.fst) := by
        rintro ⟨_, hmem⟩
        have hdec := (key_mem_filter_keys_iff c.system.bodyParts hnd _ hkv).mp hmem
        exact ht (by rw [← htt]; exact of_decide_eq_true hdec)
      rw [restoreFun, if_neg hnotA, if_neg ht]
  have hmain : (removeMutation (applyMutation c mid rp rt).1 mid).1.system.bodyParts =
      c.system.bodyParts.map (fun kv =>
        if kv.2.type = "Hand" then
          (kv.1, { kv.2 with
            equipment := if mod.preserveEquipment then kv.2.equipment else none })
        else kv) := by
    rw [hcRparts, List.map_map]
    exact List.map_congr_left hpoint
  refine ⟨hmain, ?_, ?_, ?_⟩
  · rw [hmain, List.map_map]
    apply List.map_congr_left
    intro kv _
    by_cases ht : kv.2.type = "Hand" <;> simp [Function.comp, ht]
  · rw [hmain, List.map_map]
    apply List.map_congr_left
    intro kv _
    by_cases ht : kv.2.type = "Hand" <;> simp [Function.comp, ht]
  · have hcRitems : (removeMutation (applyMutation c mid rp rt).1 mid).1.items =
        (applyMutation c mid rp rt).1.items.map (fun it =>
          if it.id = mid then
            { it with system := { it.system with addedBodyParts := [], isActive := false } }
          else it) := by rw [hremove]
    have hfind2 := find?_update_id (applyMutation c mid rp rt).1.items mid
      (fun it => { it with system := { it.system with
          addedBodyParts := [], isActive := false } })
      (fun it => rfl) _ hfind1
    rw [hcRitems, hfind2]
    rfl

/-- Test fixture: a mutation item with the given body modifications. -/
def sampleMutationItem (i : String) (mods : List BodyMod) : Item :=
  { id := i, name := i, type := "mutation",
    system :=
      { equipped := false, weight := 0, quantity := 1, av := 0, dvModifier := 0,
        slot := "", pv := 0, damage := "", isActive := false, level := 1,
        statBonuses := none, naturalWeapon := none, providesArmor := none,
        addedBodyParts := [], bodyModifications := mods, resourceTracking := none } }

/-- The Hand → BurrowingClaw replace modification of the C8 fixture. -/
def c8Mod : BodyMod :=
  { action := "replace", targetType := "Hand", newType := "BurrowingClaw",
    preserveEquipment := false, parent := "", partType := "", variant := "",
    laterality := "", withChildren := [], chimeraOrigin := false }

/-- C8 fixture: a creature with one equipped Hand part, one Body part and
the replace mutation. -/
def c8Creature : Creature :=
  { system :=
      { sampleSystem
          [("h1", { samplePart "h1" "Hand" with equipment := some "w1" }),
           ("b1", samplePart "b1" "Body")] with
        bodyRoot := "b1" }
    items := [sampleMutationItem "m1" [c8Mod]]
    idCounter := 0 }

/-- Witness for C8 at the fixture: the round trip leaves the Hand part's
id and type intact, clearing only its equipment. -/
theorem C8_replace_roundtrip_witness :
    ((removeMutation (applyMutation c8Creature "m1" "" "").1 "m1").1.system.bodyParts =
      c8Creature.system.bodyParts.map (fun kv =>
        if kv.2.type = "Hand" then
          (kv.1, { kv.2 with
            equipment := if c8Mod.preserveEquipment then kv.2.equipment else none })
        else kv))
    ∧ bpLookup
        (removeMutation (applyMutation c8Creature "m1" "" "").1 "m1").1.system.bodyParts "h1"
      = some { samplePart "h1" "Hand" with equipment := none } :=
  ⟨(C8_replace_roundtrip c8Creature "m1" "" "" (sampleMutationItem "m1" [c8Mod]) c8Mod
      rfl rfl rfl rfl rfl rfl (by decide)).1, by decide⟩

/-- The add-a-Tail modification of the C7 fixture. -/
def c7Mod : BodyMod :=
  { action := "add", targetType := "", newType := "", preserveEquipment := false,
    parent := "Body", partType := "Tail", variant := "", laterality := "",
    withChildren := [], chimeraOrigin := false }

/-- C7 fixture: a creature with a single root Body part and an add-action
mutation. -/
def c7Creature : Creature :=
  { system := { sampleSystem [("body1", samplePart "body1" "Body")] with bodyRoot := "body1" }
    items := [sampleMutationItem "m1" [c7Mod]]
    idCounter := 0 }

/-- **C7 counterexample.** Applying the add-a-Tail mutation twice without
removing it duplicates the structural effect: the hierarchy has two added
Tail parts instead of one, and the tracked added-part ids cover only the
second application's part, orphaning the first. -/
theorem C7_counterexample :
    ((applyMutation (applyMutation c7Creature "m1" "" "").1 "m1" "" "").1.system.bodyParts ≠
        (applyMutation c7Creature "m1" "" "").1.system.bodyParts)
    ∧ ((applyMutation (applyMutation c7Creature "m1" "" "").1 "m1" "" "").1.system.bodyParts.length = 3
        ∧ (applyMutation c7Creature "m1" "" "").1.system.bodyParts.length = 2)
    ∧ bpLookup
        (applyMutation (applyMutation c7Creature "m1" "" "").1 "m1" "" "").1.system.bodyParts
        "bp_0" ≠ none
    ∧ (((applyMutation (applyMutation c7Creature "m1" "" "").1 "m1" "" "").1.items.find?
          (fun it => it.id = "m1")).map (fun it => it.system.addedBodyParts) = some ["bp_1"]) := by
  refine ⟨?_, by decide, by decide, by decide⟩
  intro hc
  have h3 : ((applyMutation (applyMutation c7Creature "m1" "" "").1 "m1" "" "").1.system.bodyParts.length = 3) := by decide
  have h2 : ((applyMutation c7Creature "m1" "" "").1.system.bodyParts.length = 2) := by decide
  rw [hc, h2] at h3
  exact absurd h3 (by decide)

/-- **C7 (amended).** For a mutation whose single body modification is a
type replacement (with new type different from the target type), applying
it twice without removing leaves the body hierarchy exactly as after one
application — no structural effect is duplicated — but the second
application overwrites the mutation's tracked added-part ids with the
empty list, so the tracking no longer covers the parts changed by the
first application.  (Add-action mutations do duplicate their parts, as
the counterexample shows.) -/
theorem C7_double_apply (c : Creature) (mid rp rt : String) (m : Item) (mod : BodyMod)
    (hfind : c.items.find? (fun it => it.id = mid) = some m)
    (hm : m.type = "mutation")
    (hmods : m.system.bodyModifications = [mod])
    (hact : mod.action = "replace")
    (hneq : ¬ mod.newType = mod.targetType) :
    ((applyMutation (applyMutation c mid rp rt).1 mid rp rt).1.system.bodyParts =
        (applyMutation c mid rp rt).1.system.bodyParts)
    ∧ (((applyMutation (applyMutation c mid rp rt).1 mid rp rt).1.items.find?
          (fun it => it.id = mid)).map (fun it => it.system.addedBodyParts) = some []) := by
  have happly := applyMutation_single_replace c mid rp rt m mod hfind hm hmods hact
  have hc1parts : (applyMutation c mid rp rt).1.system.bodyParts =
      c.system.bodyParts.map (replaceFun mod) := by rw [happly]
  have hc1items : (applyMutation c mid rp rt).1.items =
      c.items.map (fun it =>
        if it.id = mid then
          { it with system := { it.system with
              addedBodyParts :=
                (c.system.bodyParts.filter
                  (fun kv => kv.2.type = mod.targetType)).map Prod.fst
              isActive := true } }
        else it) := by rw [happly]
  have hfind1 : (applyMutation c mid rp rt).1.items.find? (fun it => it.id = mid) =
      some { m with system := { m.system with
        addedBodyParts :=
          (c.system.bodyParts.filter (fun kv => kv.2.type = mod.targetType)).map Prod.fst
        isActive := true } } := by
    rw [hc1items]
    exact find?_update_id c.items mid
      (fun it => { it with system := { it.system with
          addedBodyParts :=
            (c.system.bodyParts.filter (fun kv => kv.2.type = mod.targetType)).map Prod.fst
          isActive := true } })
      (fun it => rfl) m hfind
  have happly2 := applyMutation_single_replace (applyMutation c mid rp rt).1 mid rp rt _ mod
    hfind1 hm hmods hact
  have hnomatch : ∀ kv ∈ (applyMutation c mid rp rt).1.system.bodyParts,
      ¬ kv.2.type = mod.targetType := by
    rw [hc1parts]
    intro kv hkv
    rcases List.mem_map.mp hkv with ⟨kv0, _, rfl⟩
    rw [replaceFun]
    by_cases h0 : kv0.2.type = mod.targetType
    · rw [if_pos h0]
      exact hneq
    · rw [if_neg h0]
      exact h0
  have hfilter : ((applyMutation c mid rp rt).1.system.bodyParts.filter
      (fun kv => kv.2.type = mod.targetType)) = [] := by
    rw [List.filter_eq_nil_iff]
    intro kv hkv
    simpa using hnomatch kv hkv
  constructor
  · have : (applyMutation (applyMutation c mid rp rt).1 mid rp rt).1.system.bodyParts =
        (applyMutation c mid rp rt).1.system.bodyParts.map (replaceFun mod) := by
      rw [happly2]
    rw [this]
    have hid : ∀ kv ∈ (applyMutation c mid rp rt).1.system.bodyParts,
        replaceFun mod kv = kv := by
      intro kv hkv
      rw [replaceFun, if_neg (hnomatch kv hkv)]
    rw [List.map_congr_left hid]
    simp
  · have hitems2 : (applyMutation (applyMutation c mid rp rt).1 mid rp rt).1.items =
        (applyMutation c mid rp rt).1.items.map (fun it =>
          if it.id = mid then
            { it with system := { it.system with
                addedBodyParts :=
                  ((applyMutation c mid rp rt).1.system.bodyParts.filter
                    (fun kv => kv.2.type = mod.targetType)).map Prod.fst
                isActive := true } }
          else it) := by
      rw [happly2]
    have hfind2 := find?_update_id (applyMutation c mid rp rt).1.items mid
      (fun it => { it with system := { it.system with
          addedBodyParts :=
            ((applyMutation c mid rp rt).1.system.bodyParts.filter
              (fun kv => kv.2.type = mod.targetType)).map Prod.fst
          isActive := true } })
      (fun it => rfl) _ hfind1
    rw [hitems2, hfind2]
    simp [hfilter]

/-- Witness for the amended C7 at the C8 fixture: a second application of
the replace mutation leaves the hierarchy untouched but resets the
tracked ids to `[]`. -/
theorem C7_double_apply_witness :
    ((applyMutation (applyMutation c8Creature "m1" "" "").1 "m1" "" "").1.system.bodyParts =
        (applyMutation c8Creature "m1" "" "").1.system.bodyParts)
    ∧ (((applyMutation (applyMutation c8Creature "m1" "" "").1 "m1" "" "").1.items.find?
          (fun it => it.id = "m1")).map (fun it => it.system.addedBodyParts) = some []) :=
  C7_double_apply c8Creature "m1" "" "" (sampleMutationItem "m1" [c8Mod]) c8Mod
    rfl rfl rfl rfl (by decide)

/-! ## Natural weapons (config.mjs formulas, actor.mjs `getNaturalWeapon`) -/

/-- One tier of a `damageByLevel` table. -/
structure DamageTier where
  minLevel : Int
  maxLevel : Int
  damage : String
  deriving Repr, DecidableEq

/-- One entry of `CAVESOFQUD.naturalWeaponFormulas`.  An absent
`damageByLevel` is the empty list; `hasDamageFormula` marks the presence
of Horns' `damageFormula` string; `avFormula` / `maxQuillsFormula` are
the evaluators of the catalog's concrete formula strings; `pvFormula`
keeps the formula source text (evaluated by `evalPvFormula`). -/
structure NWFormula where
  damageByLevel : List DamageTier
  hasDamageFormula : Bool
  avFormula : Option (Int → Int)
  maxQuillsFormula : Option (Int → Int)
  pvFormula : Option String

/-- `CAVESOFQUD.naturalWeaponFormulas[name]`. -/
def naturalWeaponFormulas (name : String) : Option NWFormula :=
  if name = "BurrowingClaws" then
    some { damageByLevel :=
            [⟨1, 3, "1d2-1"⟩, ⟨4, 6, "1d3-1"⟩, ⟨7, 9, "1d4-1"⟩, ⟨10, 12, "1d6-1"⟩,
             ⟨13, 15, "1d8-1"⟩, ⟨16, 17, "1d10-1"⟩, ⟨18, 99, "1d12-1"⟩]
           hasDamageFormula := false
           avFormula := none
           maxQuillsFormula := none
           pvFormula := some "level * 3" }
  else if name = "Horns" then
    some { damageByLevel := []
           hasDamageFormula := true
           avFormula := some (fun level => (level - 1).fdiv 3 + 1)
           maxQuillsFormula := none
           pvFormula := none }
  else if name = "Stinger" then
    some { damageByLevel :=
            [⟨1, 3, "1d6"⟩, ⟨4, 6, "1d8"⟩, ⟨7, 12, "1d10"⟩, ⟨13, 18, "1d12"⟩, ⟨19, 99, "2d8"⟩]
           hasDamageFormula := false
           avFormula := none
           maxQuillsFormula := none
           pvFormula := none }
  else if name = "Quills" then
    some { damageByLevel := []
           hasDamageFormula := false
           avFormula := some (fun level => 1 + level.fdiv 2)
           maxQuillsFormula := some (fun level => 300 + (level - 1) * 100)
           pvFormula := none }
  else if name = "Wings" then
    some { damageByLevel := []
           hasDamageFormula := false
           avFormula := none
           maxQuillsFormula := none
           pvFormula := none }
  else none

/-- `eval` of the catalog's only pv formula string with `level`
substituted. -/
def evalPvFormula (s : String) (level : Int) : Int :=
  if s = "level * 3" then level * 3 else 0

def charListStartsWith : List Char → List Char → Bool
  | [], _ => true
  | _ :: _, [] => false
  | a :: as, b :: bs => a == b && charListStartsWith as bs

def charListHasSub (sub : List Char) : List Char → Bool
  | [] => charListStartsWith sub []
  | b :: bs => charListStartsWith sub (b :: bs) || charListHasSub sub bs

/-- `String.prototype.includes`, over the characters of the string. -/
def jsIncludes (s sub : String) : Bool :=
  charListHasSub sub.data s.data

/-- `String.prototype.includes` for a single character. -/
def jsIncludesChar (s : String) (c : Char) : Bool :=
  s.data.contains c

/-- `CAVESOFQUD.getNaturalWeaponDamage`: tier lookup by level (falling
back to the last tier), or Horns' computed `2d(floor(level/3)+3)`. -/
def getNaturalWeaponDamage (mutationType : String) (level : Int) : Option String :=
  match naturalWeaponFormulas mutationType with
  | none => none
  | some formula =>
    if formula.damageByLevel ≠ [] then
      match formula.damageByLevel.find?
        (fun t => t.minLevel ≤ level ∧ level ≤ t.maxLevel) with
      | some tier => some tier.damage
      | none => formula.damageByLevel.getLast?.map DamageTier.damage
    else if formula.hasDamageFormula then
      some ("2d" ++ toString (level.fdiv 3 + 3))
    else none

/-- The virtual weapon object built by `getNaturalWeapon`. -/
structure VirtualWeapon where
  id : String
  name : String
  type : String
  damage : String
  pv : Int
  weaponType : String
  deriving Repr, DecidableEq

/-- The virtual-weapon construction of `getNaturalWeapon`: resolve the
damage formula (level table, fallback to the descriptor's formula,
re-resolving reference strings without a `d`, final default `1d4`), and
the PV (a level formula when the catalog has one mentioning `level`,
else the descriptor's pv, else 0). -/
def buildVirtualWeapon (it : Item) (nw : NaturalWeapon) (bodyPartId : String) :
    VirtualWeapon :=
  let damage0 :=
    match getNaturalWeaponDamage it.name it.system.level with
    | some d => d
    | none => nw.damageFormula
  let damage :=
    if ¬ (jsIncludesChar damage0 'd' = true) then
      match getNaturalWeaponDamage damage0 it.system.level with
      | some d => d
      | none => "1d4"
    else damage0
  let pv :=
    match naturalWeaponFormulas it.name with
    | none => 0
    | some formula =>
      match formula.pvFormula with
      | none => 0
      | some pf =>
        if jsIncludes pf "level" = true then evalPvFormula pf it.system.level
        else nw.pv
  { id := "natural-" ++ it.id ++ "-" ++ bodyPartId
    name := it.name
    type := "weapon"
    damage := damage
    pv := pv
    weaponType := "melee" }

/-- The item-scanning loop of `getNaturalWeapon`: the first active
mutation whose enabled natural-weapon descriptor covers the part's type
yields the virtual weapon. -/
def scanNaturalWeapon (bodyPartId : String) (bodyPart : BodyPart) :
    List Item → Option VirtualWeapon
  | [] => none
  | it :: rest =>
    if it.type = "mutation" ∧ it.system.isActive = true then
      match it.system.naturalWeapon with
      | none => scanNaturalWeapon bodyPartId bodyPart rest
      | some nw =>
        if nw.enabled = true then
          if bodyPart.type ∈ nw.bodyPartTypes then
            some (buildVirtualWeapon it nw bodyPartId)
          else scanNaturalWeapon bodyPartId bodyPart rest
        else scanNaturalWeapon bodyPartId bodyPart rest
    else scanNaturalWeapon bodyPartId bodyPart rest

/-- `getNaturalWeapon`: null for a missing part, null when anything is
equipped on the part (equipped items override natural weapons), else the
first active matching mutation's virtual weapon. -/
def getNaturalWeapon (c : Creature) (bodyPartId : String) : Option VirtualWeapon :=
  match bpLookup c.system.bodyParts bodyPartId with
  | none => none
  | some bodyPart =>
    match bodyPart.equipment with
    | some _ => none
    | none => scanNaturalWeapon bodyPartId bodyPart c.items

/-- **C10.** Whenever a body part has anything equipped, `getNaturalWeapon`
returns null — an equipped item suppresses any mutation-granted natural
weapon on that part, whatever the active mutations and whether or not the
equipped item is a weapon. -/
theorem C10_equipment_suppresses_natural_weapon (c : Creature) (bodyPartId : String)
    (part : BodyPart) (e : String)
    (hpart : bpLookup c.system.bodyParts bodyPartId = some part)
    (heq : part.equipment = some e) :
    getNaturalWeapon c bodyPartId = none := by
  rw [getNaturalWeapon, hpart]
  simp only [heq]

/-- C10 fixture: an active Horns mutation granting a natural weapon to
Head parts, one Head part equipped with a (non-weapon) item and one bare
Head part. -/
def c10Creature : Creature :=
  { system :=
      { sampleSystem
          [("hd1", { samplePart "hd1" "Head" with equipment := some "a1" }),
           ("hd2", samplePart "hd2" "Head")] with
        bodyRoot := "hd1" }
    items :=
      [sampleArmor "a1" 2,
       { sampleMutationItem "Horns" [] with
          name := "Horns"
          system := { (sampleMutationItem "Horns" []).system with
            isActive := true
            naturalWeapon := some
              { enabled := true, bodyPartTypes := ["Head"], attackChance := 20,
                damageFormula := "2d3", pv := 0 } } }]
    idCounter := 0 }

/-- Witness for C10 at the fixture: the equipped Head part gets no natural
weapon even though the Horns mutation is active and matches, while the
bare Head part does get the Horns virtual weapon. -/
theorem C10_witness :
    getNaturalWeapon c10Creature "hd1" = none
    ∧ getNaturalWeapon c10Creature "hd2" =
        some { id := "natural-Horns-hd2", name := "Horns", type := "weapon",
               damage := "2d3", pv := 0, weaponType := "melee" } :=
  ⟨C10_equipment_suppresses_natural_weapon c10Creature "hd1"
      { samplePart "hd1" "Head" with equipment := some "a1" } "a1" rfl rfl,
    by decide⟩

/-! ## Derived-stat recomputation pipeline (`_prepareCharacterData`) -/

/-- Recompute one attribute's modifier: `floor((value - 16) / 2)`. -/
def attrWithMod (a : AttrVal) : AttrVal :=
  { a with mod := (a.value - 16).fdiv 2 }

/-- All six attributes with recomputed modifiers. -/
def moddedAttrs (a : Attributes) : Attributes :=
  { strength := attrWithMod a.strength
    agility := attrWithMod a.agility
    toughness := attrWithMod a.toughness
    intelligence := attrWithMod a.intelligence
    willpower := attrWithMod a.willpower
    ego := attrWithMod a.ego }

/-- `_calculateAttributeModifiers`. -/
def calculateAttributeModifiers (c : Creature) : Creature :=
  { c with system := { c.system with attributes := moddedAttrs c.system.attributes } }

/-- The natural-armor clearing step (`part.naturalArmor = {av: 0, source: ""};
part.hasWings = false`). -/
def clearNAPart (kv : String × BodyPart) : String × BodyPart :=
  (kv.1, { kv.2 with naturalArmor := ⟨0, ""⟩, hasWings := false })

/-- The Wings write: Back parts get `hasWings = true`. -/
def setWingsBack (kv : String × BodyPart) : String × BodyPart :=
  if kv.2.type = "Back" then (kv.1, { kv.2 with hasWings := true }) else kv

/-- Guard of the Wings pass: an active mutation item named Wings. -/
def wingsGuard (it : Item) : Bool :=
  it.type = "mutation" && it.system.isActive && it.name = "Wings"

/-- The mutation-granted AV for a part (`formula.avFormula` evaluated at
the mutation level, else 0). -/
def armorAVFor (name : String) (level : Int) : Int :=
  match naturalWeaponFormulas name with
  | none => 0
  | some formula =>
    match formula.avFormula with
    | none => 0
    | some f => f level

/-- The per-part natural-armor write of an armor-granting mutation. -/
def writeNAPart (name : String) (level : Int) (t : String) (kv : String × BodyPart) :
    String × BodyPart :=
  if kv.2.type = t then
    (kv.1, { kv.2 with naturalArmor := { av := armorAVFor name level, source := name } })
  else kv

/-- The quill-count initialization (`if (!current) current = maxQuills`). -/
def updateResourceTracking (it : Item) : Item :=
  match it.system.resourceTracking with
  | none => it
  | some rt =>
    if rt.enabled = true then
      match naturalWeaponFormulas it.name with
      | none => it
      | some formula =>
        match formula.maxQuillsFormula with
        | none => it
        | some f =>
          if rt.current = 0 then
            { it with system := { it.system with
                resourceTracking := some { rt with current := f it.system.level } } }
          else it
    else it

/-- The armor-granting loop of `_calculateNaturalArmor`: for each active
armor-granting mutation, initialize its resource tracking and write its
AV onto every part of the target type. -/
def armorPass : List Item → BodyParts → List Item × BodyParts
  | [], parts => ([], parts)
  | it :: rest, parts =>
    if it.type = "mutation" ∧ it.system.isActive = true then
      match it.system.providesArmor with
      | none =>
        let r := armorPass rest parts
        (it :: r.1, r.2)
      | some pa =>
        if pa.enabled = true then
          let it' := updateResourceTracking it
          let parts' := parts.map (writeNAPart it.name it.system.level pa.bodyPartType)
          let r := armorPass rest parts'
          (it' :: r.1, r.2)
        else
          let r := armorPass rest parts
          (it :: r.1, r.2)
    else
      let r := armorPass rest parts
      (it :: r.1, r.2)

/-- One item of the Wings loop: an active Wings mutation marks all Back
parts. -/
def wingsStep (ps : BodyParts) (it : Item) : BodyParts :=
  if wingsGuard it = true then ps.map setWingsBack else ps

/-- `_calculateNaturalArmor`: clear all natural armor and wing flags, set
wings from active Wings mutations, then run the armor-granting loop. -/
def calculateNaturalArmor (c : Creature) : Creature :=
  let parts1 := c.system.bodyParts.map clearNAPart
  let parts2 := c.items.foldl wingsStep parts1
  let r := armorPass c.items parts2
  { c with system := { c.system with bodyParts := r.2 }, items := r.1 }

/-- `_calculateCombatStats`: DV/PV/MA from the attribute modifiers and the
config bases (6/4/4), then HP, then equipment bonuses. -/
def calculateCombatStats (c : Creature) : Creature :=
  let sys := c.system
  let sys1 := { sys with combat :=
    { sys.combat with
      dv := 6 + sys.attributes.agility.mod
      pv := 4 + sys.attributes.strength.mod
      ma := 4 + sys.attributes.willpower.mod } }
  let sys2 := calculateHP sys1
  let sys3 := applyEquipmentBonuses c.items sys2
  { c with system := sys3 }

/-- `_calculateCarryCapacity`: `15 × strength`, current weight from items
(`weight × (quantity || 1)`), overburdened flag. -/
def calculateCarryCapacity (c : Creature) : Creature :=
  let maxC := 15 * c.system.attributes.strength.value
  let currentWeight := (c.items.map (fun it =>
    it.system.weight * (if it.system.quantity = 0 then 1 else it.system.quantity))).sum
  { c with system := { c.system with carryCapacity :=
      { max := maxC, current := currentWeight,
        overburdened := decide (currentWeight > maxC) } } }

/-- `_calculateSkillPoints`: `(base-per-type + (INT − 10) × 4) × level`,
preserving the spent amount. -/
def calculateSkillPoints (c : Creature) : Creature :=
  let basePerLevel : Int := if c.system.characterType = "TrueKin" then 70 else 50
  let intModifier := (c.system.attributes.intelligence.value - 10) * 4
  let totalEarned := (basePerLevel + intModifier) * c.system.level
  let spent := c.system.skillPoints.spent
  { c with system := { c.system with skillPoints :=
      { total := totalEarned, spent := spent, available := totalEarned - spent } } }

/-- `_calculateHPRegeneration`: `(20 + 2 × (WIL mod + TOU mod)) / 100`. -/
def calculateHPRegeneration (c : Creature) : Creature :=
  let numerator : Int :=
    20 + 2 * (c.system.attributes.willpower.mod + c.system.attributes.toughness.mod)
  { c with system := { c.system with hpRegen := { rate := (numerator : ℚ) / 100 } } }

/-- `_calculateCooldownReduction`: 5% per WIL point above 16, capped at
80, minimum cooldown 5. -/
def calculateCooldownReduction (c : Creature) : Creature :=
  let reduction := max 0 ((c.system.attributes.willpower.value - 16) * 5)
  { c with system := { c.system with cooldownReduction :=
      { reductionPercent := min 80 reduction, minimumCooldown := 5 } } }

/-- The carry-capacity block of `_applyMutationBonuses` (flat / percent /
formula bonus onto `carryCapacity.max`). -/
def carryStage (level : Int) (bonuses : StatBonuses) (sys : SystemData) : SystemData :=
  match bonuses.carryCapacity with
  | none => sys
  | some b =>
    if b.value ≠ 0 then
      if b.type = "flat" then
        { sys with carryCapacity.max := sys.carryCapacity.max + b.value }
      else if b.type = "percent" then
        { sys with carryCapacity.max :=
            sys.carryCapacity.max + (sys.carryCapacity.max * b.value).fdiv 100 }
      else if b.type = "formula" then
        match b.formula with
        | some f => { sys with carryCapacity.max := sys.carryCapacity.max + f level }
        | none => sys
      else sys
    else sys

/-- The movement-speed block of `_applyMutationBonuses`: the movement
record is created on demand and NOT reset between runs, and the bonus is
added with `+=`. -/
def movementStage (level : Int) (bonuses : StatBonuses) (sys : SystemData) : SystemData :=
  match bonuses.movementSpeed with
  | none => sys
  | some b =>
    if b.value ≠ 0 then
      let m0 := match sys.movement with
        | none => (⟨0⟩ : Movement)
        | some m => m
      if b.type = "percent" then
        { sys with movement := some ⟨m0.speedBonus + b.value⟩ }
      else if b.type = "formula" then
        match b.formula with
        | some f => { sys with movement := some ⟨m0.speedBonus + f level⟩ }
        | none => { sys with movement := some m0 }
      else { sys with movement := some m0 }
    else sys

/-- The quickness block of `_applyMutationBonuses`: likewise created on
demand, never reset, accumulated with `+=`. -/
def quicknessStage (level : Int) (bonuses : StatBonuses) (sys : SystemData) : SystemData :=
  match bonuses.quickness with
  | none => sys
  | some b =>
    if b.value ≠ 0 then
      let q0 := match sys.quickness with
        | none => (⟨0⟩ : Quickness)
        | some q => q
      if b.type = "flat" then
        { sys with quickness := some ⟨q0.bonus + b.value⟩ }
      else if b.type = "formula" then
        match b.formula with
        | some f => { sys with quickness := some ⟨q0.bonus + f level⟩ }
        | none => { sys with quickness := some q0 }
      else { sys with quickness := some q0 }
    else sys

/-- One item's contribution in `_applyMutationBonuses`: the carry,
movement and quickness blocks run in sequence on the system data. -/
def mutationBonusStep (sys : SystemData) (it : Item) : SystemData :=
  if it.type = "mutation" ∧ it.system.isActive = true then
    match it.system.statBonuses with
    | none => sys
    | some bonuses =>
      quicknessStage it.system.level bonuses
        (movementStage it.system.level bonuses (carryStage it.system.level bonuses sys))
  else sys

/-- `_applyMutationBonuses`. -/
def applyMutationBonuses (c : Creature) : Creature :=
  { c with system := c.items.foldl mutationBonusStep c.system }

/-- `_getMutationLevelForBodyPart`: the level of the first active mutation
that tracks the part (`level || 1`), else 0. -/
def getMutationLevelForBodyPart (items : List Item) (bodyPartId : String) : Int :=
  match items.find? (fun it =>
    it.type = "mutation" && it.system.isActive
      && decide (bodyPartId ∈ it.system.addedBodyParts)) with
  | some it => if it.system.level = 0 then 1 else it.system.level
  | none => 0

/-- `_calculateOffhandChance`: `min 100 (7 + mutation level × 3 + skill
bonus)` with the tier table `[0, 20, 35, 50]`. -/
def calcOffhandChance (items : List Item) (tier : Nat) (bodyPartId : String) : Int :=
  let mutationLevel := getMutationLevelForBodyPart items bodyPartId
  let baseChance := 7 + mutationLevel * 3
  let skillBonus := ([0, 20, 35, 50] : List Int).getD tier 0
  min 100 (baseChance + skillBonus)

/-- Whether an item is an active mutation whose enabled natural weapon
covers the part type. -/
def nwMatches (partType : String) (it : Item) : Bool :=
  it.type = "mutation" && it.system.isActive &&
    (match it.system.naturalWeapon with
      | some nw => nw.enabled && decide (partType ∈ nw.bodyPartTypes)
      | none => false)

/-- The per-part body of `_calculateOffhandChances`: wielding parts get
the mutation/skill chance, natural-weapon parts get the first matching
mutation's attack chance, other parts are untouched. -/
def offhandPart (items : List Item) (tier : Nat) (kv : String × BodyPart) :
    String × BodyPart :=
  if canWieldWeapon kv.2 = true then
    (kv.1, { kv.2 with offhandChance := some (calcOffhandChance items tier kv.1) })
  else
    match items.find? (nwMatches kv.2.type) with
    | some it =>
      match it.system.naturalWeapon with
      | some nw => (kv.1, { kv.2 with offhandChance := some nw.attackChance })
      | none => kv
    | none => kv

/-- `_calculateOffhandChances`. -/
def calculateOffhandChances (c : Creature) : Creature :=
  let parts := c.system.bodyParts.map
    (offhandPart c.items c.system.skills.multiweaponFightingTier)
  { c with system := { c.system with bodyParts := parts } }

/-- `_prepareCharacterData`: the derived-stat recomputation pipeline, in
source order. -/
def prepareCharacterData (c : Creature) : Creature :=
  calculateOffhandChances
    (applyMutationBonuses
      (calculateCooldownReduction
        (calculateHPRegeneration
          (calculateSkillPoints
            (calculateCarryCapacity
              (calculateCombatStats
                (calculateNaturalArmor
                  (calculateAttributeModifiers c))))))))

/-! ## Idempotence analysis of the pipeline -/

/-- Guard of the armor-granting loop: an active mutation with an enabled
`providesArmor` descriptor. -/
def armorGuard (it : Item) : Bool :=
  it.type = "mutation" && it.system.isActive &&
    (match it.system.providesArmor with
     | some pa => pa.enabled
     | none => false)

/-- The item-side effect of one armor-loop iteration. -/
def armorItemStep (it : Item) : Item :=
  if armorGuard it = true then updateResourceTracking it else it

/-- The part-side effect of one armor-loop iteration. -/
def armorWriteStep (ps : BodyParts) (it : Item) : BodyParts :=
  if armorGuard it = true then
    ps.map (writeNAPart it.name it.system.level
      (match it.system.providesArmor with
       | some pa => pa.bodyPartType
       | none => ""))
  else ps

/-- The item list after the armor loop. -/
def naItems (items : List Item) : List Item := items.map armorItemStep

/-- The body parts after the clear / wings / armor passes. -/
def naParts (items : List Item) (ps : BodyParts) : BodyParts :=
  items.foldl armorWriteStep (items.foldl wingsStep (ps.map clearNAPart))

theorem armorPass_cons (it : Item) (rest : List Item) (ps : BodyParts) :
    armorPass (it :: rest) ps =
      (armorItemStep it :: (armorPass rest (armorWriteStep ps it)).1,
       (armorPass rest (armorWriteStep ps it)).2) := by
  by_cases hg : it.type = "mutation" ∧ it.system.isActive = true
  · rcases hpa : it.system.providesArmor with _ | pa
    · have hG : armorGuard it = false := by simp [armorGuard, hpa]
      simp [armorPass, if_pos hg, hpa, armorItemStep, armorWriteStep, hG]
    · by_cases hen : pa.enabled = true
      · have hG : armorGuard it = true := by simp [armorGuard, hpa, hg.1, hg.2, hen]
        simp [armorPass, if_pos hg, hpa, hen, armorItemStep, armorWriteStep, hG]
      · have hG : armorGuard it = false := by simp [armorGuard, hpa, hen]
        simp [armorPass, if_pos hg, hpa, hen, armorItemStep, armorWriteStep, hG]
  · have hG : armorGuard it = false := by
      rcases not_and_or.mp hg with h | h
      · simp [armorGuard, h]
      · simp [armorGuard, h]
    simp [armorPass, if_neg hg, armorItemStep, armorWriteStep, hG]

theorem armorPass_eq (items : List Item) (ps : BodyParts) :
    armorPass items ps = (items.map armorItemStep, items.foldl armorWriteStep ps) := by
  induction items generalizing ps with
  | nil => rfl
  | cons it rest ih => rw [armorPass_cons, ih]; rfl

/-- `_calculateNaturalArmor` in decomposed form: the parts go through the
clear / wings / armor folds, the items through the per-item armor step. -/
theorem calculateNaturalArmor_eq (c : Creature) :
    calculateNaturalArmor c =
      { c with
        system := { c.system with bodyParts := naParts c.items c.system.bodyParts }
        items := naItems c.items } := by
  rw [calculateNaturalArmor, armorPass_eq, naParts, naItems]

/-- The quill initialization only ever touches `resourceTracking`. -/
theorem updateResourceTracking_shape (it : Item) :
    ∃ rt, updateResourceTracking it =
      { it with system := { it.system with resourceTracking := rt } } := by
  unfold updateResourceTracking
  repeat' split
  all_goals exact ⟨_, rfl⟩

/-- The armor loop's item step only ever touches `resourceTracking`. -/
theorem armorItemStep_shape (it : Item) :
    ∃ rt, armorItemStep it =
      { it with system := { it.system with resourceTracking := rt } } := by
  unfold armorItemStep
  split
  · exact updateResourceTracking_shape it
  · exact ⟨_, rfl⟩

theorem armorGuard_armorItemStep (it : Item) :
    armorGuard (armorItemStep it) = armorGuard it := by
  obtain ⟨rt, h⟩ := armorItemStep_shape it
  rw [h]; rfl

theorem wingsGuard_armorItemStep (it : Item) :
    wingsGuard (armorItemStep it) = wingsGuard it := by
  obtain ⟨rt, h⟩ := armorItemStep_shape it
  rw [h]; rfl

theorem armorWriteStep_armorItemStep (ps : BodyParts) (it : Item) :
    armorWriteStep ps (armorItemStep it) = armorWriteStep ps it := by
  obtain ⟨rt, h⟩ := armorItemStep_shape it
  rw [h]; rfl

theorem updateResourceTracking_idem (it : Item) :
    updateResourceTracking (updateResourceTracking it) = updateResourceTracking it := by
  rcases hrt : it.system.resourceTracking with _ | rt
  · have h1 : updateResourceTracking it = it := by
      simp [updateResourceTracking, hrt]
    rw [h1, h1]
  · by_cases hen : rt.enabled = true
    · rcases hf : naturalWeaponFormulas it.name with _ | formula
      · have h1 : updateResourceTracking it = it := by
          simp [updateResourceTracking, hrt, hen, hf]
        rw [h1, h1]
      · rcases hmq : formula.maxQuillsFormula with _ | f
        · have h1 : updateResourceTracking it = it := by
            simp [updateResourceTracking, hrt, hen, hf, hmq]
          rw [h1, h1]
        · by_cases hcur : rt.current = 0
          · have h1 : updateResourceTracking it =
                { it with system := { it.system with
                    resourceTracking := some { rt with current := f it.system.level } } } := by
              simp [updateResourceTracking, hrt, hen, hf, hmq, hcur]
            rw [h1]
            by_cases hz : f it.system.level = 0
            · simp [updateResourceTracking, hen, hf, hmq, hz]
            · simp [updateResourceTracking, hen, hf, hmq, hz]
          · have h1 : updateResourceTracking it = it := by
              simp [updateResourceTracking, hrt, hen, hf, hmq, hcur]
            rw [h1, h1]
    · have h1 : updateResourceTracking it = it := by
        simp [updateResourceTracking, hrt, hen]
      rw [h1, h1]

theorem armorItemStep_idem (it : Item) :
    armorItemStep (armorItemStep it) = armorItemStep it := by
  by_cases hG : armorGuard it = true
  · rw [armorItemStep, armorGuard_armorItemStep, if_pos hG, armorItemStep, if_pos hG,
      updateResourceTracking_idem]
  · have h1 : armorItemStep it = it := by rw [armorItemStep, if_neg hG]
    rw [h1, h1]

/-- The offhand chance written onto a part by `_calculateOffhandChances`
(unchanged when the part neither wields nor carries a natural weapon). -/
def offValue (items : List Item) (tier : Nat) (k : String) (p : BodyPart) : Option Int :=
  if canWieldWeapon p = true then some (calcOffhandChance items tier k)
  else
    match items.find? (nwMatches p.type) with
    | some it =>
      match it.system.naturalWeapon with
      | some nw => some nw.attackChance
      | none => p.offhandChance
    | none => p.offhandChance

theorem offhandPart_eq (items : List Item) (tier : Nat) (k : String) (p : BodyPart) :
    offhandPart items tier (k, p) = (k, { p with offhandChance := offValue items tier k p }) := by
  unfold offhandPart offValue
  by_cases hw : canWieldWeapon p = true
  · simp [hw]
  · rcases hfind : items.find? (nwMatches p.type) with _ | it
    · simp [hw, hfind]
    · rcases hnw : it.system.naturalWeapon with _ | nw
      · simp [hw, hfind, hnw]
      · simp [hw, hfind, hnw]

theorem canWieldWeapon_oc (p : BodyPart) (oc : Option Int) :
    canWieldWeapon { p with offhandChance := oc } = canWieldWeapon p := rfl

theorem offValue_clear (items : List Item) (tier : Nat) (k : String) (p : BodyPart) :
    offValue items tier k { p with naturalArmor := ⟨0, ""⟩, hasWings := false }
      = offValue items tier k p := rfl

theorem offValue_congr (items : List Item) (tier : Nat) (k : String) (p q : BodyPart)
    (htype : p.type = q.type) (hoc : p.offhandChance = q.offhandChance) :
    offValue items tier k p = offValue items tier k q := by
  unfold offValue canWieldWeapon
  rw [htype, hoc]

theorem clear_off_comm (items : List Item) (tier : Nat) (kv : String × BodyPart) :
    clearNAPart (offhandPart items tier kv) = offhandPart items tier (clearNAPart kv) := by
  rcases kv with ⟨k, p⟩
  simp only [clearNAPart, offhandPart_eq]
  rfl

theorem wings_off_comm (items : List Item) (tier : Nat) (kv : String × BodyPart) :
    setWingsBack (offhandPart items tier kv) = offhandPart items tier (setWingsBack kv) := by
  rcases kv with ⟨k, p⟩
  by_cases ht : p.type = "Back"
  · simp [setWingsBack, offhandPart_eq, ht]
    exact offValue_congr items tier k _ _ ht rfl
  · simp [setWingsBack, offhandPart_eq, ht]

theorem write_off_comm (n : String) (l : Int) (t : String) (items : List Item) (tier : Nat)
    (kv : String × BodyPart) :
    writeNAPart n l t (offhandPart items tier kv) = offhandPart items tier (writeNAPart n l t kv) := by
  rcases kv with ⟨k, p⟩
  by_cases ht : p.type = t
  · simp [writeNAPart, offhandPart_eq, ht]
    exact offValue_congr items tier k _ _ ht rfl
  · simp [writeNAPart, offhandPart_eq, ht]

theorem clear_idem_pt (kv : String × BodyPart) :
    clearNAPart (clearNAPart kv) = clearNAPart kv := rfl

theorem clear_wings_pt (kv : String × BodyPart) :
    clearNAPart (setWingsBack kv) = clearNAPart kv := by
  rcases kv with ⟨k, p⟩
  by_cases ht : p.type = "Back" <;> simp [clearNAPart, setWingsBack, ht]

theorem clear_write_pt (n : String) (l : Int) (t : String) (kv : String × BodyPart) :
    clearNAPart (writeNAPart n l t kv) = clearNAPart kv := by
  rcases kv with ⟨k, p⟩
  by_cases ht : p.type = t <;> simp [clearNAPart, writeNAPart, ht]

theorem off_idem_pt (items : List Item) (tier : Nat) (kv : String × BodyPart) :
    offhandPart items tier (offhandPart items tier kv) = offhandPart items tier kv := by
  rcases kv with ⟨k, p⟩
  simp only [offhandPart_eq]
  by_cases hw : canWieldWeapon p = true
  · simp [offValue, hw, canWieldWeapon_oc]
  · rcases hfind : items.find? (nwMatches p.type) with _ | it
    · simp [offValue, hw, hfind, canWieldWeapon_oc]
    · rcases hnw : it.system.naturalWeapon with _ | nw
      · simp [offValue, hw, hfind, hnw, canWieldWeapon_oc]
      · simp [offValue, hw, hfind, hnw, canWieldWeapon_oc]

theorem map_off_idem (items : List Item) (tier : Nat) (ps : BodyParts) :
    (ps.map (offhandPart items tier)).map (offhandPart items tier)
      = ps.map (offhandPart items tier) := by
  rw [List.map_map]
  exact List.map_congr_left fun kv _ => off_idem_pt items tier kv

theorem map_clear_idem (ps : BodyParts) :
    (ps.map clearNAPart).map clearNAPart = ps.map clearNAPart := by
  rw [List.map_map]
  exact List.map_congr_left fun kv _ => clear_idem_pt kv

theorem map_clear_wingsFold (items : List Item) (ps : BodyParts) :
    (items.foldl wingsStep ps).map clearNAPart = ps.map clearNAPart := by
  induction items generalizing ps with
  | nil => rfl
  | cons it rest ih =>
    rw [List.foldl_cons, ih]
    by_cases hg : wingsGuard it = true
    · rw [wingsStep, if_pos hg, List.map_map]
      exact List.map_congr_left fun kv _ => clear_wings_pt kv
    · rw [wingsStep, if_neg hg]

theorem map_clear_armorFold (items : List Item) (ps : BodyParts) :
    (items.foldl armorWriteStep ps).map clearNAPart = ps.map clearNAPart := by
  induction items generalizing ps with
  | nil => rfl
  | cons it rest ih =>
    rw [List.foldl_cons, ih]
    by_cases hg : armorGuard it = true
    · rw [armorWriteStep, if_pos hg, List.map_map]
      exact List.map_congr_left fun kv _ => clear_write_pt _ _ _ kv
    · rw [armorWriteStep, if_neg hg]

theorem wingsFold_map_off (offItems : List Item) (tier : Nat) (items : List Item)
    (ps : BodyParts) :
    items.foldl wingsStep (ps.map (offhandPart offItems tier))
      = (items.foldl wingsStep ps).map (offhandPart offItems tier) := by
  induction items generalizing ps with
  | nil => rfl
  | cons it rest ih =>
    rw [List.foldl_cons, List.foldl_cons, ← ih]
    congr 1
    by_cases hg : wingsGuard it = true
    · rw [wingsStep, wingsStep, if_pos hg, if_pos hg, List.map_map, List.map_map]
      exact List.map_congr_left fun kv _ => wings_off_comm offItems tier kv
    · rw [wingsStep, wingsStep, if_neg hg, if_neg hg]

theorem armorFold_map_off (offItems : List Item) (tier : Nat) (items : List Item)
    (ps : BodyParts) :
    items.foldl armorWriteStep (ps.map (offhandPart offItems tier))
      = (items.foldl armorWriteStep ps).map (offhandPart offItems tier) := by
  induction items generalizing ps with
  | nil => rfl
  | cons it rest ih =>
    rw [List.foldl_cons, List.foldl_cons, ← ih]
    congr 1
    by_cases hg : armorGuard it = true
    · rw [armorWriteStep, armorWriteStep, if_pos hg, if_pos hg, List.map_map, List.map_map]
      exact List.map_congr_left fun kv _ => write_off_comm _ _ _ offItems tier kv
    · rw [armorWriteStep, armorWriteStep, if_neg hg, if_neg hg]

theorem wingsStep_armorItemStep (ps : BodyParts) (it : Item) :
    wingsStep ps (armorItemStep it) = wingsStep ps it := by
  rw [wingsStep, wingsStep, wingsGuard_armorItemStep]

theorem wingsFold_naItems (items : List Item) (ps : BodyParts) :
    (naItems items).foldl wingsStep ps = items.foldl wingsStep ps := by
  rw [naItems, List.foldl_map]
  induction items generalizing ps with
  | nil => rfl
  | cons it rest ih => rw [List.foldl_cons, List.foldl_cons, wingsStep_armorItemStep, ih]

theorem armorFold_naItems (items : List Item) (ps : BodyParts) :
    (naItems items).foldl armorWriteStep ps = items.foldl armorWriteStep ps := by
  rw [naItems, List.foldl_map]
  induction items generalizing ps with
  | nil => rfl
  | cons it rest ih => rw [List.foldl_cons, List.foldl_cons, armorWriteStep_armorItemStep, ih]

theorem naItems_idem (items : List Item) :
    naItems (naItems items) = naItems items := by
  rw [naItems, naItems, List.map_map]
  exact List.map_congr_left fun it _ => armorItemStep_idem it

/-- Fixed point of the natural-armor pass: re-running the clear / wings /
armor folds on the offhand-annotated output reproduces it. -/
theorem naParts_off_fixed (items offItems : List Item) (tier : Nat) (ps : BodyParts) :
    naParts (naItems items) ((naParts items ps).map (offhandPart offItems tier))
      = (naParts items ps).map (offhandPart offItems tier) := by
  have hclear : ((naParts items ps).map (offhandPart offItems tier)).map clearNAPart
      = (ps.map clearNAPart).map (offhandPart offItems tier) := by
    rw [List.map_map]
    have hcomm : ∀ kv ∈ naParts items ps,
        (clearNAPart ∘ offhandPart offItems tier) kv
          = (offhandPart offItems tier ∘ clearNAPart) kv :=
      fun kv _ => clear_off_comm offItems tier kv
    rw [List.map_congr_left hcomm, ← List.map_map]
    congr 1
    rw [naParts, map_clear_armorFold, map_clear_wingsFold, map_clear_idem]
  rw [naParts, hclear, wingsFold_map_off, wingsFold_naItems, armorFold_map_off,
    armorFold_naItems, ← naParts]

/-- The carry-capacity bonus as a function of the running maximum. -/
def carryBump (level : Int) (bonuses : StatBonuses) (mx : Int) : Int :=
  match bonuses.carryCapacity with
  | none => mx
  | some b =>
    if b.value ≠ 0 then
      if b.type = "flat" then mx + b.value
      else if b.type = "percent" then mx + (mx * b.value).fdiv 100
      else if b.type = "formula" then
        match b.formula with
        | some f => mx + f level
        | none => mx
      else mx
    else mx

/-- One item's carry-capacity effect in `_applyMutationBonuses`. -/
def carryStep (mx : Int) (it : Item) : Int :=
  if it.type = "mutation" ∧ it.system.isActive = true then
    match it.system.statBonuses with
    | none => mx
    | some bonuses => carryBump it.system.level bonuses mx
  else mx

/-- An item either is not an active mutation, or none of its movement /
quickness stat bonuses has a nonzero value (those are the accumulating,
never-reset bonuses). -/
def noAccumBonus (it : Item) : Bool :=
  !(it.type = "mutation" && it.system.isActive) ||
    (match it.system.statBonuses with
     | none => true
     | some b =>
       (match b.movementSpeed with
        | none => true
        | some mb => mb.value == 0) &&
       (match b.quickness with
        | none => true
        | some qb => qb.value == 0))

theorem carryStage_eq (level : Int) (bonuses : StatBonuses) (sys : SystemData) :
    carryStage level bonuses sys =
      { sys with carryCapacity :=
          { sys.carryCapacity with max := carryBump level bonuses sys.carryCapacity.max } } := by
  rcases hcb : bonuses.carryCapacity with _ | b
  · simp [carryStage, carryBump, hcb]
  · by_cases hv : b.value = 0
    · simp [carryStage, carryBump, hcb, hv]
    · by_cases h1 : b.type = "flat"
      · simp [carryStage, carryBump, hcb, hv, h1]
      · by_cases h2 : b.type = "percent"
        · simp [carryStage, carryBump, hcb, hv, h1, h2]
        · by_cases h3 : b.type = "formula"
          · rcases hf : b.formula with _ | f <;>
              simp [carryStage, carryBump, hcb, hv, h1, h2, h3, hf]
          · simp [carryStage, carryBump, hcb, hv, h1, h2, h3]

theorem movementStage_noAccum (level : Int) (bonuses : StatBonuses) (sys : SystemData)
    (hmv : ∀ mb, bonuses.movementSpeed = some mb → mb.value = 0) :
    movementStage level bonuses sys = sys := by
  rcases hmb : bonuses.movementSpeed with _ | mb
  · simp [movementStage, hmb]
  · simp [movementStage, hmb, hmv mb hmb]

theorem quicknessStage_noAccum (level : Int) (bonuses : StatBonuses) (sys : SystemData)
    (hqk : ∀ qb, bonuses.quickness = some qb → qb.value = 0) :
    quicknessStage level bonuses sys = sys := by
  rcases hqb : bonuses.quickness with _ | qb
  · simp [quicknessStage, hqb]
  · simp [quicknessStage, hqb, hqk qb hqb]

theorem mutationBonusStep_noAccum (sys : SystemData) (it : Item)
    (hna : noAccumBonus it = true) :
    mutationBonusStep sys it =
      { sys with carryCapacity :=
          { sys.carryCapacity with max := carryStep sys.carryCapacity.max it } } := by
  by_cases hg : it.type = "mutation" ∧ it.system.isActive = true
  · rcases hsb : it.system.statBonuses with _ | b
    · simp [mutationBonusStep, carryStep, hg, hsb]
    · have hmv : ∀ mb, b.movementSpeed = some mb → mb.value = 0 := by
        intro mb hmb
        by_contra hne
        simp [noAccumBonus, hg.1, hg.2, hsb, hmb, hne] at hna
      have hqk : ∀ qb, b.quickness = some qb → qb.value = 0 := by
        intro qb hqb
        by_contra hne
        simp [noAccumBonus, hg.1, hg.2, hsb, hqb, hne] at hna
      rw [mutationBonusStep, if_pos hg]
      rw [show (match it.system.statBonuses with
            | none => sys
            | some bonuses =>
              quicknessStage it.system.level bonuses
                (movementStage it.system.level bonuses
                  (carryStage it.system.level bonuses sys)))
          = quicknessStage it.system.level b
              (movementStage it.system.level b (carryStage it.system.level b sys)) from by
        rw [hsb]]
      rw [movementStage_noAccum _ _ _ hmv, quicknessStage_noAccum _ _ _ hqk, carryStage_eq]
      rw [carryStep, if_pos hg]
      rw [show (match it.system.statBonuses with
            | none => sys.carryCapacity.max
            | some bonuses => carryBump it.system.level bonuses sys.carryCapacity.max)
          = carryBump it.system.level b sys.carryCapacity.max from by rw [hsb]]
  · have hG' : carryStep sys.carryCapacity.max it = sys.carryCapacity.max := by
      rw [carryStep, if_neg hg]
    rw [mutationBonusStep, if_neg hg, hG']

theorem applyMutationBonuses_noAccum (items : List Item) (sys : SystemData)
    (hacc : items.all noAccumBonus = true) :
    items.foldl mutationBonusStep sys =
      { sys with carryCapacity :=
          { sys.carryCapacity with max := items.foldl carryStep sys.carryCapacity.max } } := by
  induction items generalizing sys with
  | nil => rfl
  | cons it rest ih =>
    rw [List.all_cons, Bool.and_eq_true] at hacc
    rw [List.foldl_cons, List.foldl_cons, mutationBonusStep_noAccum _ _ hacc.1, ih _ hacc.2]

theorem carryStep_armorItemStep (mx : Int) (it : Item) :
    carryStep mx (armorItemStep it) = carryStep mx it := by
  obtain ⟨rt, h⟩ := armorItemStep_shape it
  rw [h]; rfl

theorem noAccumBonus_armorItemStep (it : Item) :
    noAccumBonus (armorItemStep it) = noAccumBonus it := by
  obtain ⟨rt, h⟩ := armorItemStep_shape it
  rw [h]; rfl

theorem all_noAccum_naItems (items : List Item) :
    (naItems items).all noAccumBonus = items.all noAccumBonus := by
  rw [naItems]
  induction items with
  | nil => rfl
  | cons it rest ih =>
    rw [List.map_cons, List.all_cons, List.all_cons, noAccumBonus_armorItemStep, ih]

theorem carryFold_naItems (items : List Item) (mx : Int) :
    (naItems items).foldl carryStep mx = items.foldl carryStep mx := by
  rw [naItems, List.foldl_map]
  induction items generalizing mx with
  | nil => rfl
  | cons it rest ih => rw [List.foldl_cons, List.foldl_cons, carryStep_armorItemStep, ih]

theorem hpCore_idem (L V M : Int) (h : Health) :
    hpCore L V M (hpCore L V M h) = hpCore L V M h := by
  by_cases hl : L = 1
  · simp only [hpCore, if_pos hl]
    by_cases hlen : h.hpHistory.length = 0
    · by_cases hv : h.value > V <;> simp [hlen, hv]
    · by_cases hv : h.value > V <;> simp [hlen, hv]
  · simp only [hpCore, if_neg hl]
    rcases hh : h.hpHistory with _ | ⟨e0, rest⟩
    · by_cases hv : h.value > V <;> simp [hv]
    · have hmap1 : (rest.map (fun e => ({ e with modifier := M, total := e.roll + M } : HPEntry))).map
            (fun e => ({ e with modifier := M, total := e.roll + M } : HPEntry))
          = rest.map (fun e => ({ e with modifier := M, total := e.roll + M } : HPEntry)) := by
        rw [List.map_map]; rfl
      have hmap2 : (rest.map (fun e => ({ e with modifier := M, total := e.roll + M } : HPEntry))).map
            (fun e => e.roll + M)
          = rest.map (fun e => e.roll + M) := by
        rw [List.map_map]; rfl
      have haux : ∀ A B : Int, (A < if A < B then A else B) → A = if A < B then A else B := by
        intro A B hcon
        by_cases hc : A < B
        · rw [if_pos hc] at hcon
          exact absurd hcon (lt_irrefl A)
        · rw [if_neg hc] at hcon
          exact absurd hcon hc
      by_cases hv : h.value > V + (rest.map (fun e => e.roll + M)).sum <;>
        (simp [hh, hmap1, hmap2, hv]
         try exact haux _ _)

/-- `_applyEquipmentBonuses` in closed form: av and dv receive the floors
of the spec-side per-type average totals. -/
theorem applyEquipmentBonuses_eq (items : List Item) (sys : SystemData) :
    applyEquipmentBonuses items sys =
      { sys with combat := { sys.combat with
          av := jsFloor (specTotalAV items (sys.bodyParts.map Prod.snd))
          dv := sys.combat.dv + jsFloor (specTotalDV items (sys.bodyParts.map Prod.snd)) } } := by
  have hfold := bonusFold_eq items (groupPartsByType (sys.bodyParts.map Prod.snd)) 0 0
    (groups_nonempty _)
  have hav : ((groupPartsByType (sys.bodyParts.map Prod.snd)).foldl (bonusFoldStep items) (0, 0)).1
      = specTotalAV items (sys.bodyParts.map Prod.snd) := by
    rw [hfold, groupPartsByType_eq, specTotalAV]
    simp only [zero_add, List.map_map]
    rfl
  have hdv : ((groupPartsByType (sys.bodyParts.map Prod.snd)).foldl (bonusFoldStep items) (0, 0)).2
      = specTotalDV items (sys.bodyParts.map Prod.snd) := by
    rw [hfold, groupPartsByType_eq, specTotalDV]
    simp only [zero_add, List.map_map]
    rfl
  simp only [applyEquipmentBonuses]
  rw [hav, hdv]

theorem off_snd_type (offItems : List Item) (tier : Nat) (kv : String × BodyPart) :
    (offhandPart offItems tier kv).2.type = kv.2.type := by
  rcases kv with ⟨k, p⟩
  rw [offhandPart_eq]

theorem off_snd_av (items offItems : List Item) (tier : Nat) (kv : String × BodyPart) :
    partAVContribution items (offhandPart offItems tier kv).2 = partAVContribution items kv.2 := by
  rcases kv with ⟨k, p⟩
  rw [offhandPart_eq]
  rfl

theorem off_snd_dv (items offItems : List Item) (tier : Nat) (kv : String × BodyPart) :
    partDVContribution items (offhandPart offItems tier kv).2 = partDVContribution items kv.2 := by
  rcases kv with ⟨k, p⟩
  rw [offhandPart_eq]
  rfl

theorem typeKeys_map_congr (ps : BodyParts) (f g : String × BodyPart → BodyPart)
    (htype : ∀ x, (f x).type = (g x).type) :
    typeKeys (ps.map f) = typeKeys (ps.map g) := by
  unfold typeKeys
  rw [List.foldl_map, List.foldl_map]
  suffices hgen : ∀ acc : List String,
      ps.foldl (fun acc x => if (f x).type ∈ acc then acc else acc ++ [(f x).type]) acc
        = ps.foldl (fun acc x => if (g x).type ∈ acc then acc else acc ++ [(g x).type]) acc from
    hgen []
  intro acc
  induction ps generalizing acc with
  | nil => rfl
  | cons x xs ih => rw [List.foldl_cons, List.foldl_cons, htype x]; exact ih _

theorem avgSum_map_congr (ps : BodyParts) (f g : String × BodyPart → BodyPart)
    (contrib : BodyPart → Int)
    (htype : ∀ x, (f x).type = (g x).type)
    (hc : ∀ x, contrib (f x) = contrib (g x)) :
    ((typeKeys (ps.map f)).map
        (fun t => listAvg (((ps.map f).filter (fun p => p.type = t)).map contrib))).sum
      = ((typeKeys (ps.map g)).map
        (fun t => listAvg (((ps.map g).filter (fun p => p.type = t)).map contrib))).sum := by
  rw [typeKeys_map_congr ps f g htype]
  apply congrArg List.sum
  apply List.map_congr_left
  intro t _
  rw [List.filter_map, List.filter_map, List.map_map, List.map_map]
  have hfil : ps.filter ((fun p => decide (p.type = t)) ∘ f)
      = ps.filter ((fun p => decide (p.type = t)) ∘ g) := by
    apply List.filter_congr
    intro x _
    simp only [Function.comp_apply, htype x]
  rw [hfil]
  apply congrArg listAvg
  apply List.map_congr_left
  intro x _
  exact hc x

theorem specTotalAV_map_off (items offItems : List Item) (tier : Nat) (ps : BodyParts) :
    specTotalAV items ((ps.map (offhandPart offItems tier)).map Prod.snd)
      = specTotalAV items (ps.map Prod.snd) := by
  rw [List.map_map, specTotalAV, specTotalAV]
  exact avgSum_map_congr ps _ Prod.snd (partAVContribution items)
    (fun x => off_snd_type offItems tier x) (fun x => off_snd_av items offItems tier x)

theorem specTotalDV_map_off (items offItems : List Item) (tier : Nat) (ps : BodyParts) :
    specTotalDV items ((ps.map (offhandPart offItems tier)).map Prod.snd)
      = specTotalDV items (ps.map Prod.snd) := by
  rw [List.map_map, specTotalDV, specTotalDV]
  exact avgSum_map_congr ps _ Prod.snd (partDVContribution items)
    (fun x => off_snd_type offItems tier x) (fun x => off_snd_dv items offItems tier x)

/-- `_calculateCombatStats` in closed form. -/
theorem calculateCombatStats_eq (c : Creature) :
    calculateCombatStats c =
      { c with system := { c.system with
          combat := { dv := 6 + c.system.attributes.agility.mod
                        + jsFloor (specTotalDV c.items (c.system.bodyParts.map Prod.snd))
                      pv := 4 + c.system.attributes.strength.mod
                      ma := 4 + c.system.attributes.willpower.mod
                      av := jsFloor (specTotalAV c.items (c.system.bodyParts.map Prod.snd))
                      mainHandId := c.system.combat.mainHandId }
          health := hpCore c.system.level c.system.attributes.toughness.value
            c.system.attributes.toughness.mod c.system.health } } := by
  simp only [calculateCombatStats, calculateHP]
  rw [applyEquipmentBonuses_eq]

/-- `_applyMutationBonuses` under the no-accumulating-bonus hypothesis:
only the carry-capacity maximum changes. -/
theorem applyMutationBonuses_eq_noAccum (c : Creature)
    (hacc : c.items.all noAccumBonus = true) :
    applyMutationBonuses c =
      { c with system := { c.system with carryCapacity :=
          { c.system.carryCapacity with
            max := c.items.foldl carryStep c.system.carryCapacity.max } } } := by
  simp only [applyMutationBonuses]
  rw [applyMutationBonuses_noAccum _ _ hacc]

/-- The normal form computed by one run of `_prepareCharacterData` (when
no active mutation carries an accumulating movement / quickness bonus). -/
def pipelineNF (c : Creature) : Creature :=
  let attrs1 := moddedAttrs c.system.attributes
  let items1 := naItems c.items
  let partsA := naParts c.items c.system.bodyParts
  let tier := c.system.skills.multiweaponFightingTier
  let health1 := hpCore c.system.level attrs1.toughness.value attrs1.toughness.mod c.system.health
  let cw := (items1.map (fun it =>
    it.system.weight * (if it.system.quantity = 0 then 1 else it.system.quantity))).sum
  let maxBase := 15 * attrs1.strength.value
  let spTotal := ((if c.system.characterType = "TrueKin" then (70 : Int) else 50)
    + (attrs1.intelligence.value - 10) * 4) * c.system.level
  let hrRate : ℚ := ((20 + 2 * (attrs1.willpower.mod + attrs1.toughness.mod) : Int) : ℚ) / 100
  let cdRed := min 80 (max 0 ((attrs1.willpower.value - 16) * 5))
  { c with
    system := { c.system with
      attributes := attrs1
      combat := { dv := 6 + attrs1.agility.mod + jsFloor (specTotalDV items1 (partsA.map Prod.snd))
                  pv := 4 + attrs1.strength.mod
                  ma := 4 + attrs1.willpower.mod
                  av := jsFloor (specTotalAV items1 (partsA.map Prod.snd))
                  mainHandId := c.system.combat.mainHandId }
      health := health1
      carryCapacity := { max := items1.foldl carryStep maxBase, current := cw,
                         overburdened := decide (cw > maxBase) }
      skillPoints := { total := spTotal, spent := c.system.skillPoints.spent,
                       available := spTotal - c.system.skillPoints.spent }
      hpRegen := { rate := hrRate }
      cooldownReduction := { reductionPercent := cdRed, minimumCooldown := 5 }
      bodyParts := partsA.map (offhandPart items1 tier) }
    items := items1 }

/-- One run of the pipeline computes the normal form, provided no active
mutation has an accumulating (movement / quickness) stat bonus. -/
theorem prepareCharacterData_noAccum (c : Creature)
    (hacc : c.items.all noAccumBonus = true) :
    prepareCharacterData c = pipelineNF c := by
  have hacc1 : (naItems c.items).all noAccumBonus = true := by
    rw [all_noAccum_naItems]; exact hacc
  simp only [prepareCharacterData, calculateAttributeModifiers]
  rw [calculateNaturalArmor_eq, calculateCombatStats_eq]
  simp only [calculateCarryCapacity, calculateSkillPoints, calculateHPRegeneration,
    calculateCooldownReduction]
  rw [applyMutationBonuses_eq_noAccum _ hacc1]
  simp only [calculateOffhandChances, pipelineNF]

/-- The normal form is a fixed point of itself. -/
theorem pipelineNF_idem (c : Creature) :
    pipelineNF (pipelineNF c) = pipelineNF c := by
  simp only [pipelineNF, moddedAttrs, attrWithMod]
  simp only [naItems_idem, naParts_off_fixed, hpCore_idem, specTotalAV_map_off,
    specTotalDV_map_off, map_off_idem]

/-- C6 fixture: a flat +5 quickness stat bonus. -/
def c6Bonus : StatBonuses :=
  { carryCapacity := none, movementSpeed := none,
    quickness := some { type := "flat", value := 5, formula := none } }

/-- C6 fixture: an active mutation granting the quickness bonus. -/
def c6Item : Item :=
  { sampleMutationItem "q1" [] with
    system := { (sampleMutationItem "q1" []).system with
      isActive := true, statBonuses := some c6Bonus } }

/-- C6 fixture: a creature owning the quickness mutation. -/
def c6Creature : Creature :=
  { system := sampleSystem [("b1", samplePart "b1" "Body")]
    items := [c6Item]
    idCounter := 0 }

/-- **C6 counterexample.** The recomputation pipeline is not idempotent:
`system.movement` / `system.quickness` are created on demand but never
reset, and `_applyMutationBonuses` adds into them with `+=` on every run.
A creature with an active flat +5 quickness mutation has quickness bonus
5 after one run and 10 after two. -/
theorem C6_counterexample :
    (prepareCharacterData (prepareCharacterData c6Creature)).system.quickness = some ⟨10⟩
    ∧ (prepareCharacterData c6Creature).system.quickness = some ⟨5⟩
    ∧ prepareCharacterData (prepareCharacterData c6Creature) ≠ prepareCharacterData c6Creature := by
  have h10 : (prepareCharacterData (prepareCharacterData c6Creature)).system.quickness
      = some ⟨10⟩ := by decide
  have h5 : (prepareCharacterData c6Creature).system.quickness = some ⟨5⟩ := by decide
  refine ⟨h10, h5, fun h => ?_⟩
  rw [h, h5] at h10
  exact absurd h10 (by decide)

/-- **C6 (amended).** `_prepareCharacterData` recomputes every derived
stat from base values, so running it twice yields the same result as
running it once — PROVIDED no active mutation carries a movement-speed or
quickness stat bonus of nonzero value.  (Those two bonuses are added with
`+=` into on-demand records that are never reset, so they accumulate
across runs; `C6_counterexample` exhibits the failure.  Every other
derived stat — attribute modifiers, natural armor, combat stats, HP,
carry capacity, skill points, regeneration, cooldowns, offhand chances —
is recomputed from scratch and stable.) -/
theorem C6_double_prepare (c : Creature) (hacc : c.items.all noAccumBonus = true) :
    prepareCharacterData (prepareCharacterData c) = prepareCharacterData c := by
  have h1 := prepareCharacterData_noAccum c hacc
  have hacc2 : (prepareCharacterData c).items.all noAccumBonus = true := by
    rw [h1]
    show (naItems c.items).all noAccumBonus = true
    rw [all_noAccum_naItems]
    exact hacc
  rw [prepareCharacterData_noAccum _ hacc2, h1, pipelineNF_idem]

/-- C6 witness fixture: a creature owning an inactive mutation with no
stat bonuses. -/
def c6wCreature : Creature :=
  { system := sampleSystem [("b1", samplePart "b1" "Body")]
    items := [sampleMutationItem "m9" []]
    idCounter := 0 }

/-- Witness for the amended C6 at a concrete creature without
accumulating bonuses: the double run equals the single run. -/
theorem C6_double_prepare_witness :
    c6wCreature.items.all noAccumBonus = true
    ∧ prepareCharacterData (prepareCharacterData c6wCreature)
        = prepareCharacterData c6wCreature :=
  ⟨by decide, C6_double_prepare c6wCreature (by decide)⟩

end Qud
